import Mathlib

/-!
Verification of the MFlow compiler pipeline (lexer, recursive-descent parser,
scope-checking semantic analyzer, code generator and compiler facade) against
its natural-language specification.  Every definition is a shallow embedding
of the corresponding TypeScript source in `src/Mflow-ts/src/compiler/`:
strings are Lean `String`s, the mutable cursor state of each stage is passed
explicitly, thrown `ParseError`s become `Except` values, and `console.error`
logging becomes an explicit list of collected errors.
-/

namespace MFlow

/-- Token kinds of the MFlow lexer, one constructor per member of the
TypeScript `enum TokenType` in `lexer/tokens.ts`. -/
inductive TokenType where
  | NUMBER | STRING | COLOR | IDENTIFIER
  | LET | FN | RETURN | IF | ELSE | REPEAT | ANIMATE | SCENE
  | CIRCLE | RECT | LINE | TRIANGLE
  | MOVE | ROTATE | SCALE | FADE
  | UP | DOWN | LEFT | RIGHT
  | AT | SIZE | WIDTH | HEIGHT | COLOR_PROP | SPEED
  | PLUS | MINUS | MULTIPLY | DIVIDE | MODULO
  | ASSIGN | EQUAL | NOT_EQUAL | LESS_THAN | GREATER_THAN | LESS_EQUAL | GREATER_EQUAL
  | LPAREN | RPAREN | LBRACE | RBRACE | COMMA | DOT | NEWLINE
  | EOF | ILLEGAL
  deriving DecidableEq, Repr

/-- A lexed token: `interface Token` of `lexer/tokens.ts`. -/
structure Token where
  type : TokenType
  value : String
  line : Nat
  column : Nat
  deriving DecidableEq, Repr

/-- The case-insensitive reserved-word table `KEYWORDS` of `lexer/tokens.ts`
(lookup is performed on the lowercased identifier). -/
def keywords (s : String) : Option TokenType :=
  match s with
  | "let" => some .LET
  | "fn" => some .FN
  | "return" => some .RETURN
  | "if" => some .IF
  | "else" => some .ELSE
  | "repeat" => some .REPEAT
  | "animate" => some .ANIMATE
  | "scene" => some .SCENE
  | "circle" => some .CIRCLE
  | "rect" => some .RECT
  | "line" => some .LINE
  | "triangle" => some .TRIANGLE
  | "move" => some .MOVE
  | "rotate" => some .ROTATE
  | "scale" => some .SCALE
  | "fade" => some .FADE
  | "up" => some .UP
  | "down" => some .DOWN
  | "left" => some .LEFT
  | "right" => some .RIGHT
  | "at" => some .AT
  | "size" => some .SIZE
  | "width" => some .WIDTH
  | "height" => some .HEIGHT
  | "color" => some .COLOR_PROP
  | "speed" => some .SPEED
  | _ => none

/-- Lexer cursor state: the remaining input characters together with the
current 1-based line and column, mirroring the `position`/`line`/`column`
fields of `class Lexer` (the current character is the head of `rest`). -/
structure LexState where
  rest : List Char
  line : Nat
  column : Nat
  deriving DecidableEq, Repr

/-- The state the `Lexer` constructor sets up for a source string. -/
def initLexState (input : String) : LexState :=
  { rest := input.data, line := 1, column := 1 }

/-- `Lexer.advance`: step to the next character, bumping the column, and
when the character now under the cursor is a newline, bump the line and
reset the column to 1 (exactly the TypeScript update order). -/
def advanceL (st : LexState) : LexState :=
  match st.rest with
  | [] => { st with column := st.column + 1 }
  | _ :: cs =>
    match cs with
    | '\n' :: _ => { rest := cs, line := st.line + 1, column := 1 }
    | _ => { rest := cs, line := st.line, column := st.column + 1 }

theorem advanceL_rest (st : LexState) : (advanceL st).rest = st.rest.tail := by
  unfold advanceL
  cases h : st.rest with
  | nil => simp
  | cons c cs => cases cs <;> simp_all <;> split <;> simp

/-- Whitespace skipped silently by the scan (space, tab, carriage return). -/
def isWsChar (c : Char) : Bool := c == ' ' || c == '\t' || c == '\r'

/-- The character class of the regex `/\d/`. -/
def isDigitChar (c : Char) : Bool := c.isDigit

/-- The character class of the regex `/[a-zA-Z_]/`. -/
def isIdentStartChar (c : Char) : Bool := c.isAlpha || c == '_'

/-- The character class of the regex `/[a-zA-Z0-9_]/`. -/
def isIdentChar (c : Char) : Bool := c.isAlpha || c.isDigit || c == '_'

/-- The character class of the regex `/[0-9A-Fa-f]/`. -/
def isHexChar (c : Char) : Bool :=
  c.isDigit || (65 ≤ c.toNat && c.toNat ≤ 70) || (97 ≤ c.toNat && c.toNat ≤ 102)

/-- Consume characters while `p` holds, returning them in order together with
the state after them.  This is the shape of every scanning `while` loop of
the TypeScript lexer. -/
def readWhile (p : Char → Bool) (st : LexState) : List Char × LexState :=
  match h : st.rest with
  | c :: _ =>
    if p c then
      let r := readWhile p (advanceL st)
      (c :: r.1, r.2)
    else ([], st)
  | [] => ([], st)
termination_by st.rest.length
decreasing_by
  simp only [advanceL_rest, h, List.tail_cons, List.length_cons]
  omega

theorem readWhile_length_le (p : Char → Bool) (st : LexState) :
    ((readWhile p st).2).rest.length ≤ st.rest.length := by
  induction st using readWhile.induct p with
  | case1 st c cs h hp ih =>
    rw [readWhile, h]
    simp only [hp, if_true]
    have ha : (advanceL st).rest.length = cs.length := by
      rw [advanceL_rest, h]; rfl
    rw [ha] at ih
    simpa using ih.trans (Nat.le_succ _)
  | case2 st c cs h hp =>
    rw [readWhile, h]
    simp [hp, h]
  | case3 st h =>
    rw [readWhile, h]
    simp [h]

theorem readWhile_length_lt (p : Char → Bool) (st : LexState) (c : Char)
    (hrest : st.rest.head? = some c) (hp : p c = true) :
    ((readWhile p st).2).rest.length < st.rest.length := by
  cases h : st.rest with
  | nil => rw [h] at hrest; simp at hrest
  | cons a cs =>
    rw [h] at hrest
    simp only [List.head?_cons, Option.some.injEq] at hrest
    subst hrest
    rw [readWhile, h]
    simp only [hp, if_true]
    have h2 := readWhile_length_le p (advanceL st)
    have h3 : (advanceL st).rest.length < st.rest.length := by
      simp only [advanceL_rest, h, List.tail_cons, List.length_cons]; omega
    rw [h] at h3
    omega

/-- `Lexer.skipWhitespace`. -/
def skipWhitespace (st : LexState) : LexState := (readWhile isWsChar st).2

/-- The consuming loop of `Lexer.skipComment`: advance through the end of the
current line (the newline itself is not consumed). -/
def skipToLineEnd (st : LexState) : LexState := (readWhile (fun c => !(c == '\n')) st).2

/-- Does the cursor sit on a `//` comment start (the `isComment` test of
`Lexer.skipComment`)? -/
def isCommentStart (st : LexState) : Bool :=
  match st.rest with
  | c1 :: c2 :: _ => c1 == '/' && c2 == '/'
  | _ => false

theorem skipToLineEnd_length_lt (st : LexState) (h : isCommentStart st = true) :
    (skipToLineEnd st).rest.length < st.rest.length := by
  unfold skipToLineEnd
  cases hr : st.rest with
  | nil => unfold isCommentStart at h; rw [hr] at h; simp at h
  | cons a cs =>
    cases cs with
    | nil => unfold isCommentStart at h; rw [hr] at h; simp at h
    | cons b cs2 =>
      unfold isCommentStart at h
      rw [hr] at h
      simp only [Bool.and_eq_true, beq_iff_eq] at h
      have hlt := readWhile_length_lt (fun c => !(c == '\n')) st a (by rw [hr]; rfl)
        (by rw [h.1]; decide)
      rw [hr] at hlt
      exact hlt

/-- The leading whitespace-and-comment phase of the scan loop of
`Lexer.nextToken`: repeatedly skip whitespace, and on a `//` comment skip through the end
of the line and start over. -/
def skipTrivia (st : LexState) : LexState :=
  if h : isCommentStart (skipWhitespace st) then skipTrivia (skipToLineEnd (skipWhitespace st))
  else skipWhitespace st
termination_by st.rest.length
decreasing_by
  have h1 : (skipWhitespace st).rest.length ≤ st.rest.length := readWhile_length_le _ st
  have h2 := skipToLineEnd_length_lt (skipWhitespace st) h
  omega

theorem skipTrivia_length_le (st : LexState) :
    (skipTrivia st).rest.length ≤ st.rest.length := by
  induction st using skipTrivia.induct with
  | case1 st h ih =>
    rw [skipTrivia]
    simp only [h, dif_pos]
    have h1 : (skipWhitespace st).rest.length ≤ st.rest.length := readWhile_length_le _ st
    have h2 := skipToLineEnd_length_lt (skipWhitespace st) h
    omega
  | case2 st h =>
    rw [skipTrivia]
    simp only [h, dif_neg, not_false_iff]
    exact readWhile_length_le _ st

/-- The scanning loop of `Lexer.readNumber`: digits with at most one decimal
point — a second decimal point terminates the literal without consuming it. -/
def readNumberLoop (hasDot : Bool) (st : LexState) : List Char × LexState :=
  match h : st.rest with
  | c :: _ =>
    if isDigitChar c || c == '.' then
      if c == '.' && hasDot then ([], st)
      else
        let r := readNumberLoop (hasDot || c == '.') (advanceL st)
        (c :: r.1, r.2)
    else ([], st)
  | [] => ([], st)
termination_by st.rest.length
decreasing_by
  simp only [advanceL_rest, h, List.tail_cons, List.length_cons]
  omega

/-- `Lexer.readNumber`. -/
def readNumber (st : LexState) : Token × LexState :=
  let startColumn := st.column
  let r := readNumberLoop false st
  ({ type := .NUMBER, value := String.mk r.1, line := r.2.line, column := startColumn }, r.2)

/-- The scanning loop of `Lexer.readString`: consume until the closing quote
or end of input, turning a backslash-quote pair into a literal quote. -/
def readStringLoop (st : LexState) : List Char × LexState :=
  match h : st.rest with
  | c :: cs =>
    if c == '"' then ([], st)
    else if c == '\\' && cs.head? == some '"' then
      let r := readStringLoop (advanceL (advanceL st))
      ('"' :: r.1, r.2)
    else
      let r := readStringLoop (advanceL st)
      (c :: r.1, r.2)
  | [] => ([], st)
termination_by st.rest.length
decreasing_by
  all_goals
    simp only [advanceL_rest, h, List.tail_cons, List.length_cons, List.length_tail]
    omega

/-- `Lexer.readString`: skip the opening quote, scan the body, and skip the
closing quote when present (an unterminated string just stops at end of
input). -/
def readString (st : LexState) : Token × LexState :=
  let startColumn := st.column
  let r := readStringLoop (advanceL st)
  let st2 := if r.2.rest.head? == some '"' then advanceL r.2 else r.2
  ({ type := .STRING, value := String.mk r.1, line := st2.line, column := startColumn }, st2)

/-- `Lexer.readColor`: a hash sign followed by zero or more hex digits. -/
def readColor (st : LexState) : Token × LexState :=
  let startColumn := st.column
  let r := readWhile isHexChar (advanceL st)
  ({ type := .COLOR, value := String.mk ('#' :: r.1), line := r.2.line, column := startColumn },
    r.2)

/-- `Lexer.readIdentifier`: letters, digits and underscores, with a
case-insensitive keyword lookup (the token value keeps the original case). -/
def readIdentifier (st : LexState) : Token × LexState :=
  let startColumn := st.column
  let r := readWhile isIdentChar st
  let ttype := (keywords (String.mk (r.1.map Char.toLower))).getD .IDENTIFIER
  ({ type := ttype, value := String.mk r.1, line := r.2.line, column := startColumn }, r.2)

/-- A single-character token of the operator switch of `Lexer.nextToken`: advance
past the character and report the line after the advance (as the TypeScript
does). -/
def singleCharToken (t : TokenType) (v : String) (startColumn : Nat) (st : LexState) :
    Token × LexState :=
  let st1 := advanceL st
  ({ type := t, value := v, line := st1.line, column := startColumn }, st1)

/-- A maybe-two-character token (`==`, `!=`, `<=`, `>=` versus `=`, `!`, `<`,
`>`): advance, and when the next character is `=`, consume it too. -/
def twoCharToken (tOne : TokenType) (vOne : String) (tTwo : TokenType) (vTwo : String)
    (startColumn : Nat) (st : LexState) : Token × LexState :=
  let st1 := advanceL st
  if st1.rest.head? == some '=' then
    let st2 := advanceL st1
    ({ type := tTwo, value := vTwo, line := st2.line, column := startColumn }, st2)
  else
    ({ type := tOne, value := vOne, line := st1.line, column := startColumn }, st1)

/-- The operator/delimiter switch at the bottom of `Lexer.nextToken`;
unrecognized single characters yield an `ILLEGAL` token. -/
def opToken (c : Char) (st : LexState) : Token × LexState :=
  match c with
  | '+' => singleCharToken .PLUS "+" st.column st
  | '-' => singleCharToken .MINUS "-" st.column st
  | '*' => singleCharToken .MULTIPLY "*" st.column st
  | '/' => singleCharToken .DIVIDE "/" st.column st
  | '%' => singleCharToken .MODULO "%" st.column st
  | '=' => twoCharToken .ASSIGN "=" .EQUAL "==" st.column st
  | '!' => twoCharToken .ILLEGAL "!" .NOT_EQUAL "!=" st.column st
  | '<' => twoCharToken .LESS_THAN "<" .LESS_EQUAL "<=" st.column st
  | '>' => twoCharToken .GREATER_THAN ">" .GREATER_EQUAL ">=" st.column st
  | '(' => singleCharToken .LPAREN "(" st.column st
  | ')' => singleCharToken .RPAREN ")" st.column st
  | '\x7b' => singleCharToken .LBRACE "\x7b" st.column st
  | '\x7d' => singleCharToken .RBRACE "\x7d" st.column st
  | ',' => singleCharToken .COMMA "," st.column st
  | '.' => singleCharToken .DOT "." st.column st
  | _ => singleCharToken .ILLEGAL (String.mk [c]) st.column st

/-- `Lexer.nextToken`: skip whitespace and comments, then produce the next
token (newline, number, string, color, identifier/keyword or
operator/delimiter), or the end-of-input token when the input is
exhausted. -/
def nextToken (st : LexState) : Token × LexState :=
  let st1 := skipTrivia st
  match st1.rest with
  | [] => ({ type := .EOF, value := "", line := st1.line, column := st1.column }, st1)
  | c :: _ =>
    if c == '\n' then
      ({ type := .NEWLINE, value := "\n", line := st1.line, column := st1.column }, advanceL st1)
    else if isDigitChar c then readNumber st1
    else if c == '"' then readString st1
    else if c == '#' then readColor st1
    else if isIdentStartChar c then readIdentifier st1
    else opToken c st1

theorem advanceL_length_le (st : LexState) : (advanceL st).rest.length ≤ st.rest.length := by
  rw [advanceL_rest]
  simp only [List.length_tail]
  omega

theorem advanceL_length_lt (st : LexState) (h : st.rest ≠ []) :
    (advanceL st).rest.length < st.rest.length := by
  rw [advanceL_rest]
  simp only [List.length_tail]
  have hp : 0 < st.rest.length := List.length_pos.mpr h
  omega

theorem readNumberLoop_length_le (hasDot : Bool) (st : LexState) :
    ((readNumberLoop hasDot st).2).rest.length ≤ st.rest.length := by
  induction hasDot, st using readNumberLoop.induct with
  | case1 hasDot st c cs h hp hdot =>
    rw [readNumberLoop, h]
    simp [hp, hdot, h]
  | case2 hasDot st c cs h hp hdot ih =>
    rw [readNumberLoop, h]
    simp only [hp, if_true, hdot, if_false, Bool.false_eq_true]
    have ha : (advanceL st).rest.length = cs.length := by
      rw [advanceL_rest, h]; rfl
    rw [ha] at ih
    simpa using ih.trans (Nat.le_succ _)
  | case3 hasDot st c cs h hp =>
    rw [readNumberLoop, h]
    simp [hp, h]
  | case4 hasDot st h =>
    rw [readNumberLoop, h]
    simp [h]

theorem readStringLoop_length_le (st : LexState) :
    ((readStringLoop st).2).rest.length ≤ st.rest.length := by
  induction st using readStringLoop.induct with
  | case1 st c cs h hq =>
    rw [readStringLoop, h]
    simp [hq, h]
  | case2 st c cs h hq hesc ih =>
    rw [readStringLoop, h]
    have ha : (advanceL st).rest.length = cs.length := by
      rw [advanceL_rest, h]; rfl
    have hb := advanceL_length_le (advanceL st)
    rw [ha] at hb
    simp only [hq, hesc, if_true, if_false, Bool.false_eq_true]
    simpa using (ih.trans hb).trans (Nat.le_succ _)
  | case3 st c cs h hq hesc ih =>
    rw [readStringLoop, h]
    have ha : (advanceL st).rest.length = cs.length := by
      rw [advanceL_rest, h]; rfl
    rw [ha] at ih
    simp only [hq, hesc, if_true, if_false, Bool.false_eq_true]
    simpa using ih.trans (Nat.le_succ _)
  | case4 st h =>
    rw [readStringLoop, h]
    simp [h]

theorem readNumber_length_lt (st : LexState) (c : Char) (h : st.rest.head? = some c)
    (hc : isDigitChar c = true) : ((readNumber st).2).rest.length < st.rest.length := by
  obtain ⟨cs, hr⟩ : ∃ cs, st.rest = c :: cs := by
    cases hrr : st.rest with
    | nil => rw [hrr] at h; simp at h
    | cons a as =>
      rw [hrr] at h
      simp only [List.head?_cons, Option.some.injEq] at h
      subst h
      exact ⟨as, rfl⟩
  show ((readNumberLoop false st).2).rest.length < st.rest.length
  rw [readNumberLoop, hr]
  simp only [hc, Bool.true_or, if_true, Bool.and_false, Bool.false_eq_true, if_false]
  have h1 := readNumberLoop_length_le (false || (c == '.')) (advanceL st)
  have ha : (advanceL st).rest.length = cs.length := by
    rw [advanceL_rest, hr]; rfl
  rw [ha] at h1
  simpa using Nat.lt_succ_of_le h1

theorem readString_length_lt (st : LexState) (h : st.rest ≠ []) :
    ((readString st).2).rest.length < st.rest.length := by
  show (if ((readStringLoop (advanceL st)).2).rest.head? == some '"'
      then advanceL ((readStringLoop (advanceL st)).2)
      else (readStringLoop (advanceL st)).2).rest.length < st.rest.length
  have h1 := readStringLoop_length_le (advanceL st)
  have h2 := advanceL_length_lt st h
  have h3 := advanceL_length_le ((readStringLoop (advanceL st)).2)
  split <;> omega

theorem readColor_length_lt (st : LexState) (h : st.rest ≠ []) :
    ((readColor st).2).rest.length < st.rest.length := by
  show ((readWhile isHexChar (advanceL st)).2).rest.length < st.rest.length
  have h1 := readWhile_length_le isHexChar (advanceL st)
  have h2 := advanceL_length_lt st h
  omega

theorem readIdentifier_length_lt (st : LexState) (c : Char) (h : st.rest.head? = some c)
    (hc : isIdentStartChar c = true) : ((readIdentifier st).2).rest.length < st.rest.length := by
  show ((readWhile isIdentChar st).2).rest.length < st.rest.length
  apply readWhile_length_lt isIdentChar st c h
  simp only [isIdentStartChar, Bool.or_eq_true] at hc
  simp only [isIdentChar, Bool.or_eq_true]
  tauto

theorem singleCharToken_length_lt (t : TokenType) (v : String) (k : Nat) (st : LexState)
    (h : st.rest ≠ []) : ((singleCharToken t v k st).2).rest.length < st.rest.length :=
  advanceL_length_lt st h

theorem twoCharToken_length_lt (t1 : TokenType) (v1 : String) (t2 : TokenType) (v2 : String)
    (k : Nat) (st : LexState) (h : st.rest ≠ []) :
    ((twoCharToken t1 v1 t2 v2 k st).2).rest.length < st.rest.length := by
  have h1 := advanceL_length_lt st h
  have h2 := advanceL_length_le (advanceL st)
  by_cases hc : (advanceL st).rest.head? == some '='
  · simp only [twoCharToken, hc, if_true]
    omega
  · simp only [twoCharToken, hc, if_false, Bool.false_eq_true]
    omega

theorem opToken_length_lt (c : Char) (st : LexState) (h : st.rest ≠ []) :
    ((opToken c st).2).rest.length < st.rest.length := by
  unfold opToken
  split <;>
    first
    | exact singleCharToken_length_lt _ _ _ _ h
    | exact twoCharToken_length_lt _ _ _ _ _ _ h

/-- Every `Lexer.nextToken` call either reports end of input or strictly
consumes characters — the lexer makes progress on every token. -/
theorem nextToken_eof_or_lt (st : LexState) :
    (nextToken st).1.type = .EOF ∨ (nextToken st).2.rest.length < st.rest.length := by
  have hle := skipTrivia_length_le st
  unfold nextToken
  cases h : (skipTrivia st).rest with
  | nil => left; simp [h]
  | cons c cs =>
    right
    simp only [h]
    have hne : (skipTrivia st).rest ≠ [] := by rw [h]; simp
    have hcons : (skipTrivia st).rest.length = cs.length + 1 := by rw [h]; rfl
    by_cases h1 : c == '\n'
    · simp only [h1, if_true]
      have := advanceL_length_lt (skipTrivia st) hne
      omega
    · simp only [h1, if_false, Bool.false_eq_true]
      by_cases h2 : isDigitChar c
      · simp only [h2, if_true]
        have := readNumber_length_lt (skipTrivia st) c (by rw [h]; rfl) h2
        omega
      · simp only [h2, if_false, Bool.false_eq_true]
        by_cases h3 : c == '"'
        · simp only [h3, if_true]
          have := readString_length_lt (skipTrivia st) hne
          omega
        · simp only [h3, if_false, Bool.false_eq_true]
          by_cases h4 : c == '#'
          · simp only [h4, if_true]
            have := readColor_length_lt (skipTrivia st) hne
            omega
          · simp only [h4, if_false, Bool.false_eq_true]
            by_cases h5 : isIdentStartChar c
            · simp only [h5, if_true]
              have := readIdentifier_length_lt (skipTrivia st) c (by rw [h]; rfl) h5
              omega
            · simp only [h5, if_false, Bool.false_eq_true]
              have := opToken_length_lt c (skipTrivia st) hne
              omega

/-- The collecting loop of `Lexer.tokenize`: gather tokens until the
end-of-input token, skipping newline tokens, then append the end-of-input
token itself. -/
def tokenizeLoop (st : LexState) : List Token :=
  match hr : nextToken st with
  | (t, st2) =>
    if h1 : t.type = .EOF then [t]
    else if t.type = .NEWLINE then tokenizeLoop st2
    else t :: tokenizeLoop st2
termination_by st.rest.length
decreasing_by
  all_goals
    rcases nextToken_eof_or_lt st with h | h
    · rw [hr] at h; exact absurd h h1
    · rw [hr] at h; exact h

/-- `Lexer.tokenize`: the full token sequence of a source string, newline
tokens filtered out, ending in the end-of-input token. -/
def tokenize (source : String) : List Token := tokenizeLoop (initLexState source)

/-- Structure of the token list produced by the tokenize loop: some ordinary
tokens (none of which is an end-of-input or newline token) followed by
exactly one end-of-input token. -/
theorem tokenizeLoop_spec (st : LexState) :
    ∃ ts t, tokenizeLoop st = ts ++ [t] ∧ t.type = .EOF ∧
      ∀ u ∈ ts, u.type ≠ .EOF ∧ u.type ≠ .NEWLINE := by
  induction st using tokenizeLoop.induct with
  | case1 st t st2 hr heof =>
    refine ⟨[], t, ?_, heof, by simp⟩
    rw [tokenizeLoop]
    simp [hr, heof]
  | case2 st t st2 hr hne hnl ih =>
    obtain ⟨ts, tt, heq, ht, hts⟩ := ih
    refine ⟨ts, tt, ?_, ht, hts⟩
    rw [tokenizeLoop]
    simp [hr, hne, hnl, heq]
  | case3 st t st2 hr hne hnl ih =>
    obtain ⟨ts, tt, heq, ht, hts⟩ := ih
    refine ⟨t :: ts, tt, ?_, ht, ?_⟩
    · rw [tokenizeLoop]
      simp [hr, hne, hnl, heq]
    · intro u hu
      rcases List.mem_cons.mp hu with h | h
      · subst h; exact ⟨hne, hnl⟩
      · exact hts u h

/-- An identifier AST node (`interface Identifier` of `ast/nodes.ts`),
as used for `let` bindings, function names and parameter lists. -/
structure Ident where
  name : String
  line : Nat
  column : Nat
  deriving DecidableEq, Repr

/-- Expression AST nodes of `ast/nodes.ts`: literals, identifier references,
binary operations, calls, and the four shape constructors.  A number literal
keeps the numeral text of its token: the TypeScript stores
`parseFloat(token.value)` and the generator emits `value.toString()`, which
round-trips the canonical decimal numerals exercised here; the
floating-point normalization itself is outside this embedding. -/
inductive Expression where
  | identifier (name : String) (line column : Nat)
  | numberLit (value : String) (line column : Nat)
  | stringLit (value : String) (line column : Nat)
  | colorLit (value : String) (line column : Nat)
  | binary (operator : String) (left right : Expression) (line column : Nat)
  | call (callee : Expression) (args : List Expression) (line column : Nat)
  | circle (x y size color : Expression) (line column : Nat)
  | rect (x y width height color : Expression) (line column : Nat)
  | lineShape (x1 y1 x2 y2 color : Expression) (line column : Nat)
  | triangle (points : List (Expression × Expression)) (color : Expression) (line column : Nat)
  deriving Repr

/-- The `line` field every expression node carries. -/
def Expression.line : Expression → Nat
  | .identifier _ l _ => l
  | .numberLit _ l _ => l
  | .stringLit _ l _ => l
  | .colorLit _ l _ => l
  | .binary _ _ _ l _ => l
  | .call _ _ l _ => l
  | .circle _ _ _ _ l _ => l
  | .rect _ _ _ _ _ l _ => l
  | .lineShape _ _ _ _ _ l _ => l
  | .triangle _ _ l _ => l

/-- The `column` field every expression node carries. -/
def Expression.column : Expression → Nat
  | .identifier _ _ c => c
  | .numberLit _ _ c => c
  | .stringLit _ _ c => c
  | .colorLit _ _ c => c
  | .binary _ _ _ _ c => c
  | .call _ _ _ c => c
  | .circle _ _ _ _ _ c => c
  | .rect _ _ _ _ _ _ c => c
  | .lineShape _ _ _ _ _ _ c => c
  | .triangle _ _ _ c => c

/-- Animation-command AST nodes (`Move`, `Rotate`, `Scale`, `Fade`). The
`direction` of a move is the lowercased direction-keyword text, `"right"`
when no direction keyword follows the amount. -/
inductive AnimCommand where
  | move (amount : Expression) (direction : String) (line column : Nat)
  | rotate (angle : Expression) (line column : Nat)
  | scale (factor : Expression) (line column : Nat)
  | fade (amount : Expression) (line column : Nat)
  deriving Repr

/-- Statement AST nodes of `ast/nodes.ts`. -/
inductive Statement where
  | letStmt (identifier : Ident) (value : Expression) (line column : Nat)
  | fnDecl (name : Ident) (parameters : List Ident) (body : List Statement) (line column : Nat)
  | returnStmt (value : Option Expression) (line column : Nat)
  | ifStmt (condition : Expression) (thenBranch : List Statement)
      (elseBranch : Option (List Statement)) (line column : Nat)
  | repeatStmt (times : Expression) (body : List Statement) (line column : Nat)
  | animateBlock (animations : List AnimCommand) (line column : Nat)
  | sceneBlock (name : String) (body : List Statement) (line column : Nat)
  | exprStmt (expression : Expression) (line column : Nat)
  deriving Repr

/-- The `Program` AST root. -/
structure Program where
  body : List Statement
  line : Nat
  column : Nat
  deriving Repr

/-- A parse diagnostic (`class ParseError` of `parser/parser.ts`): the
message passed to the constructor together with the reported position. -/
structure ParseError where
  message : String
  line : Nat
  column : Nat
  deriving DecidableEq, Repr

/-- The formatted message a thrown `ParseError` carries
(`Parse error at line L, column C: msg`). -/
def ParseError.formatted (e : ParseError) : String :=
  "Parse error at line " ++ toString e.line ++ ", column " ++ toString e.column ++ ": " ++
    e.message

/-- Parser cursor state: the token array and the `current` index of
`class Parser`. -/
structure ParserState where
  tokens : List Token
  current : Nat
  deriving DecidableEq, Repr

/-- Placeholder for an out-of-range token access.  On every token list the
pipeline produces, the list ends in an end-of-input token and the cursor
never moves past it, so this default is never reached; it is typed as an
end-of-input token so that out-of-range reads behave like the end. -/
def defaultToken : Token := { type := .EOF, value := "", line := 0, column := 0 }

/-- `Parser.peek`. -/
def peekT (st : ParserState) : Token := st.tokens.getD st.current defaultToken

/-- `Parser.previous`. -/
def previousT (st : ParserState) : Token := st.tokens.getD (st.current - 1) defaultToken

/-- `Parser.isAtEnd`. -/
def isAtEnd (st : ParserState) : Bool := (peekT st).type == .EOF

/-- `Parser.advance`: move past the current token unless at the end. -/
def advanceP (st : ParserState) : ParserState :=
  if isAtEnd st then st else { st with current := st.current + 1 }

/-- `Parser.check`. -/
def checkT (st : ParserState) (ty : TokenType) : Bool :=
  if isAtEnd st then false else (peekT st).type == ty

/-- `Parser.match`: advance past the current token when its type is one of
the given types, reporting whether it did. -/
def matchT (st : ParserState) (types : List TokenType) : Bool × ParserState :=
  match types with
  | [] => (false, st)
  | ty :: rest => if checkT st ty then (true, advanceP st) else matchT st rest

/-- The parser computation monad: a state-passing function that either
returns a value or a thrown `ParseError`, in both cases together with the
parser state at that point (a thrown TypeScript exception leaves
`this.current` as it stood at the throw). -/
def PM (α : Type) := ParserState → Except ParseError α × ParserState

instance : Monad PM where
  pure a := fun st => (Except.ok a, st)
  bind m f := fun st =>
    match m st with
    | (Except.ok a, st2) => f a st2
    | (Except.error e, st2) => (Except.error e, st2)

/-- Read the parser state. -/
def getPS : PM ParserState := fun st => (Except.ok st, st)

/-- `throw new ParseError(...)`. -/
def throwPE {α : Type} (e : ParseError) : PM α := fun st => (Except.error e, st)

/-- `Parser.consume`: advance past the expected token type or throw a
`ParseError` carrying the message and the position of the offending token. -/
def consumePM (ty : TokenType) (msg : String) : PM Token := fun st =>
  if checkT st ty then (Except.ok (peekT st), advanceP st)
  else (Except.error { message := msg, line := (peekT st).line, column := (peekT st).column }, st)

/-- `Parser.match` in the parser monad. -/
def matchPM (types : List TokenType) : PM Bool := fun st =>
  let r := matchT st types
  (Except.ok r.1, r.2)

/-- `Parser.check` in the parser monad. -/
def checkPM (ty : TokenType) : PM Bool := fun st => (Except.ok (checkT st ty), st)

/-- `Parser.isAtEnd` in the parser monad. -/
def isAtEndPM : PM Bool := fun st => (Except.ok (isAtEnd st), st)

/-- `Parser.previous` in the parser monad. -/
def previousPM : PM Token := fun st => (Except.ok (previousT st), st)

/-- `Parser.peek` in the parser monad. -/
def peekPM : PM Token := fun st => (Except.ok (peekT st), st)

/-- `Parser.advance` in the parser monad (returns the consumed token). -/
def advancePM : PM Token := fun st => (Except.ok (previousT (advanceP st)), advanceP st)

/-- The artifact error of the fuel-exhaustion branch of the embedded parser.
The recursive-descent methods of the TypeScript parser are embedded with a
fuel parameter; every entry point supplies fuel exceeding any possible
recursion, so this branch is unreachable there and exists only to make the
definitions total. -/
def fuelError : ParseError := { message := "fuel exhausted", line := 0, column := 0 }

mutual

/-- `Parser.statement`: keyword-driven statement dispatch; anything that does
not start with a statement keyword parses as an expression statement. -/
def statementP : Nat → PM Statement
  | 0 => throwPE fuelError
  | n + 1 => do
    if (← matchPM [.LET]) then letStatementP n
    else if (← matchPM [.FN]) then functionDeclarationP n
    else if (← matchPM [.RETURN]) then returnStatementP n
    else if (← matchPM [.IF]) then ifStatementP n
    else if (← matchPM [.REPEAT]) then repeatStatementP n
    else if (← matchPM [.ANIMATE]) then animateBlockP n
    else if (← matchPM [.SCENE]) then sceneBlockP n
    else expressionStatementP n

/-- `Parser.letStatement`. -/
def letStatementP : Nat → PM Statement
  | 0 => throwPE fuelError
  | n + 1 => do
    let token ← previousPM
    let name ← consumePM .IDENTIFIER "Expected variable name"
    let _ ← consumePM .ASSIGN "Expected = after variable name"
    let value ← expressionP n
    pure (.letStmt { name := name.value, line := name.line, column := name.column } value
      token.line token.column)

/-- `Parser.functionDeclaration`. -/
def functionDeclarationP : Nat → PM Statement
  | 0 => throwPE fuelError
  | n + 1 => do
    let token ← previousPM
    let name ← consumePM .IDENTIFIER "Expected function name"
    let _ ← consumePM .LPAREN "Expected ( after function name"
    let parameters ← do
      if (← checkPM .RPAREN) then pure []
      else paramListP n
    let _ ← consumePM .RPAREN "Expected ) after parameters"
    let _ ← consumePM .LBRACE "Expected \x7b before function body"
    let body ← blockStatementsP n
    let _ ← consumePM .RBRACE "Expected \x7d after function body"
    pure (.fnDecl { name := name.value, line := name.line, column := name.column } parameters
      body token.line token.column)

/-- The `do`/`while (match COMMA))` parameter loop of
`Parser.functionDeclaration`. -/
def paramListP : Nat → PM (List Ident)
  | 0 => throwPE fuelError
  | n + 1 => do
    let param ← consumePM .IDENTIFIER "Expected parameter name"
    if (← matchPM [.COMMA]) then
      let rest ← paramListP n
      pure ({ name := param.value, line := param.line, column := param.column } :: rest)
    else
      pure [{ name := param.value, line := param.line, column := param.column }]

/-- The `while (!check(RBRACE) && !isAtEnd())` statement-list loop shared by
function, if/else, repeat and scene bodies. -/
def blockStatementsP : Nat → PM (List Statement)
  | 0 => throwPE fuelError
  | n + 1 => do
    let c ← checkPM .RBRACE
    let e ← isAtEndPM
    if !c && !e then
      let s ← statementP n
      let rest ← blockStatementsP n
      pure (s :: rest)
    else pure []

/-- `Parser.returnStatement`. -/
def returnStatementP : Nat → PM Statement
  | 0 => throwPE fuelError
  | n + 1 => do
    let token ← previousPM
    let e ← isAtEndPM
    let pk ← peekPM
    if !e && !(pk.type == .RBRACE) then
      let v ← expressionP n
      pure (.returnStmt (some v) token.line token.column)
    else pure (.returnStmt none token.line token.column)

/-- `Parser.ifStatement`. -/
def ifStatementP : Nat → PM Statement
  | 0 => throwPE fuelError
  | n + 1 => do
    let token ← previousPM
    let condition ← expressionP n
    let _ ← consumePM .LBRACE "Expected \x7b after if condition"
    let thenBranch ← blockStatementsP n
    let _ ← consumePM .RBRACE "Expected \x7d after if body"
    if (← matchPM [.ELSE]) then
      let _ ← consumePM .LBRACE "Expected \x7b after else"
      let elseBranch ← blockStatementsP n
      let _ ← consumePM .RBRACE "Expected \x7d after else body"
      pure (.ifStmt condition thenBranch (some elseBranch) token.line token.column)
    else pure (.ifStmt condition thenBranch none token.line token.column)

/-- `Parser.repeatStatement`. -/
def repeatStatementP : Nat → PM Statement
  | 0 => throwPE fuelError
  | n + 1 => do
    let token ← previousPM
    let times ← expressionP n
    let _ ← consumePM .LBRACE "Expected \x7b after repeat count"
    let body ← blockStatementsP n
    let _ ← consumePM .RBRACE "Expected \x7d after repeat body"
    pure (.repeatStmt times body token.line token.column)

/-- `Parser.animateBlock`. -/
def animateBlockP : Nat → PM Statement
  | 0 => throwPE fuelError
  | n + 1 => do
    let token ← previousPM
    let _ ← consumePM .LBRACE "Expected \x7b after animate"
    let animations ← animListP n
    let _ ← consumePM .RBRACE "Expected \x7d after animate block"
    pure (.animateBlock animations token.line token.column)

/-- The animate-block body loop: only the four animation-command keywords are
recognized; any other token inside the block is skipped by an `advance`. -/
def animListP : Nat → PM (List AnimCommand)
  | 0 => throwPE fuelError
  | n + 1 => do
    let c ← checkPM .RBRACE
    let e ← isAtEndPM
    if !c && !e then
      if (← matchPM [.MOVE]) then
        let cmd ← moveCommandP n
        let rest ← animListP n
        pure (cmd :: rest)
      else if (← matchPM [.ROTATE]) then
        let cmd ← rotateCommandP n
        let rest ← animListP n
        pure (cmd :: rest)
      else if (← matchPM [.SCALE]) then
        let cmd ← scaleCommandP n
        let rest ← animListP n
        pure (cmd :: rest)
      else if (← matchPM [.FADE]) then
        let cmd ← fadeCommandP n
        let rest ← animListP n
        pure (cmd :: rest)
      else do
        let _ ← advancePM
        animListP n
    else pure []

/-- `Parser.sceneBlock`. -/
def sceneBlockP : Nat → PM Statement
  | 0 => throwPE fuelError
  | n + 1 => do
    let token ← previousPM
    let name ← consumePM .IDENTIFIER "Expected scene name"
    let _ ← consumePM .LBRACE "Expected \x7b after scene name"
    let body ← blockStatementsP n
    let _ ← consumePM .RBRACE "Expected \x7d after scene body"
    pure (.sceneBlock name.value body token.line token.column)

/-- `Parser.moveCommand`: the amount is a `primary` expression; the direction
defaults to `right` and is overwritten (with the lowercased keyword text)
only when one of the four direction keywords follows.  Written with the
state passing explicit — the `do` sugar of the sibling parsers unfolds to
exactly this. -/
def moveCommandP : Nat → PM AnimCommand
  | 0 => throwPE fuelError
  | n + 1 => fun st =>
    let token := previousT st
    match primaryP n st with
    | (Except.ok amount, st1) =>
      let r := matchT st1 [.UP, .DOWN, .LEFT, .RIGHT]
      if r.1 then
        (Except.ok (.move amount (previousT r.2).value.toLower token.line token.column), r.2)
      else
        (Except.ok (.move amount "right" token.line token.column), r.2)
    | (Except.error e, st1) => (Except.error e, st1)

/-- `Parser.rotateCommand`. -/
def rotateCommandP : Nat → PM AnimCommand
  | 0 => throwPE fuelError
  | n + 1 => do
    let token ← previousPM
    let angle ← primaryP n
    pure (.rotate angle token.line token.column)

/-- `Parser.scaleCommand`. -/
def scaleCommandP : Nat → PM AnimCommand
  | 0 => throwPE fuelError
  | n + 1 => do
    let token ← previousPM
    let factor ← primaryP n
    pure (.scale factor token.line token.column)

/-- `Parser.fadeCommand`. -/
def fadeCommandP : Nat → PM AnimCommand
  | 0 => throwPE fuelError
  | n + 1 => do
    let token ← previousPM
    let amount ← primaryP n
    pure (.fade amount token.line token.column)

/-- `Parser.expressionStatement`. -/
def expressionStatementP : Nat → PM Statement
  | 0 => throwPE fuelError
  | n + 1 => do
    let expr ← expressionP n
    pure (.exprStmt expr expr.line expr.column)

/-- `Parser.expression`: the lowest precedence level delegates to
`comparison`. -/
def expressionP : Nat → PM Expression
  | 0 => throwPE fuelError
  | n + 1 => comparisonP n

/-- `Parser.comparison`: an additive operand followed by the comparison
`while` loop. -/
def comparisonP : Nat → PM Expression
  | 0 => throwPE fuelError
  | n + 1 => do
    let e ← additiveP n
    comparisonLoopP n e

/-- The `while (match comparison-operator)` loop of `Parser.comparison`,
which left-nests one binary node per matched operator. -/
def comparisonLoopP : Nat → Expression → PM Expression
  | 0, _ => throwPE fuelError
  | n + 1, expr => do
    if (← matchPM [.GREATER_THAN, .GREATER_EQUAL, .LESS_THAN, .LESS_EQUAL, .EQUAL,
        .NOT_EQUAL]) then
      let op ← previousPM
      let right ← additiveP n
      comparisonLoopP n (.binary op.value expr right op.line op.column)
    else pure expr

/-- `Parser.additive`. -/
def additiveP : Nat → PM Expression
  | 0 => throwPE fuelError
  | n + 1 => do
    let e ← multiplicativeP n
    additiveLoopP n e

/-- The `while (match + -)` loop of `Parser.additive`. -/
def additiveLoopP : Nat → Expression → PM Expression
  | 0, _ => throwPE fuelError
  | n + 1, expr => do
    if (← matchPM [.PLUS, .MINUS]) then
      let op ← previousPM
      let right ← multiplicativeP n
      additiveLoopP n (.binary op.value expr right op.line op.column)
    else pure expr

/-- `Parser.multiplicative`. -/
def multiplicativeP : Nat → PM Expression
  | 0 => throwPE fuelError
  | n + 1 => do
    let e ← callP n
    multiplicativeLoopP n e

/-- The `while (match * / %)` loop of `Parser.multiplicative`. -/
def multiplicativeLoopP : Nat → Expression → PM Expression
  | 0, _ => throwPE fuelError
  | n + 1, expr => do
    if (← matchPM [.MULTIPLY, .DIVIDE, .MODULO]) then
      let op ← previousPM
      let right ← callP n
      multiplicativeLoopP n (.binary op.value expr right op.line op.column)
    else pure expr

/-- `Parser.call`: a shape/primary, turned into a call expression when a
parenthesized argument list follows. -/
def callP : Nat → PM Expression
  | 0 => throwPE fuelError
  | n + 1 => do
    let expr ← shapeP n
    if (← matchPM [.LPAREN]) then
      let args ← do
        if (← checkPM .RPAREN) then pure []
        else argListP n
      let _ ← consumePM .RPAREN "Expected ) after arguments"
      pure (.call expr args expr.line expr.column)
    else pure expr

/-- The `do`/`while (match COMMA)` argument loop of `Parser.call`. -/
def argListP : Nat → PM (List Expression)
  | 0 => throwPE fuelError
  | n + 1 => do
    let arg ← expressionP n
    if (← matchPM [.COMMA]) then
      let rest ← argListP n
      pure (arg :: rest)
    else pure [arg]

/-- `Parser.shape`: shape constructors are recognized at the primary level by
keyword. -/
def shapeP : Nat → PM Expression
  | 0 => throwPE fuelError
  | n + 1 => do
    if (← matchPM [.CIRCLE]) then circleP n
    else if (← matchPM [.RECT]) then rectP n
    else if (← matchPM [.LINE]) then lineP n
    else if (← matchPM [.TRIANGLE]) then triangleP n
    else primaryP n

/-- `Parser.circle`: fixed clause sequence `at (x, y)`, `size`, `color`. -/
def circleP : Nat → PM Expression
  | 0 => throwPE fuelError
  | n + 1 => do
    let token ← previousPM
    let _ ← consumePM .AT "Expected \"at\" after circle"
    let _ ← consumePM .LPAREN "Expected ( for position"
    let x ← expressionP n
    let _ ← consumePM .COMMA "Expected , in position"
    let y ← expressionP n
    let _ ← consumePM .RPAREN "Expected ) after position"
    let _ ← consumePM .SIZE "Expected \"size\" keyword"
    let size ← expressionP n
    let _ ← consumePM .COLOR_PROP "Expected \"color\" keyword"
    let color ← expressionP n
    pure (.circle x y size color token.line token.column)

/-- `Parser.rect`: fixed clause sequence `at (x, y)`, `width`, `height`,
`color`. -/
def rectP : Nat → PM Expression
  | 0 => throwPE fuelError
  | n + 1 => do
    let token ← previousPM
    let _ ← consumePM .AT "Expected \"at\" after rect"
    let _ ← consumePM .LPAREN "Expected ( for position"
    let x ← expressionP n
    let _ ← consumePM .COMMA "Expected , in position"
    let y ← expressionP n
    let _ ← consumePM .RPAREN "Expected ) after position"
    let _ ← consumePM .WIDTH "Expected \"width\" keyword"
    let width ← expressionP n
    let _ ← consumePM .HEIGHT "Expected \"height\" keyword"
    let height ← expressionP n
    let _ ← consumePM .COLOR_PROP "Expected \"color\" keyword"
    let color ← expressionP n
    pure (.rect x y width height color token.line token.column)

/-- `Parser.line`: two parenthesized endpoints then `color`. -/
def lineP : Nat → PM Expression
  | 0 => throwPE fuelError
  | n + 1 => do
    let token ← previousPM
    let _ ← consumePM .LPAREN "Expected ( for start position"
    let x1 ← expressionP n
    let _ ← consumePM .COMMA "Expected , in position"
    let y1 ← expressionP n
    let _ ← consumePM .RPAREN "Expected ) after start position"
    let _ ← consumePM .LPAREN "Expected ( for end position"
    let x2 ← expressionP n
    let _ ← consumePM .COMMA "Expected , in position"
    let y2 ← expressionP n
    let _ ← consumePM .RPAREN "Expected ) after end position"
    let _ ← consumePM .COLOR_PROP "Expected \"color\" keyword"
    let color ← expressionP n
    pure (.lineShape x1 y1 x2 y2 color token.line token.column)

/-- One parenthesized point of the three-point loop of `Parser.triangle`. -/
def pointP : Nat → PM (Expression × Expression)
  | 0 => throwPE fuelError
  | n + 1 => do
    let _ ← consumePM .LPAREN "Expected ( for point"
    let x ← expressionP n
    let _ ← consumePM .COMMA "Expected , in point"
    let y ← expressionP n
    let _ ← consumePM .RPAREN "Expected ) after point"
    pure (x, y)

/-- `Parser.triangle`: exactly three points (the TypeScript `for` loop runs
three times) then `color`. -/
def triangleP : Nat → PM Expression
  | 0 => throwPE fuelError
  | n + 1 => do
    let token ← previousPM
    let p1 ← pointP n
    let p2 ← pointP n
    let p3 ← pointP n
    let _ ← consumePM .COLOR_PROP "Expected \"color\" keyword"
    let color ← expressionP n
    pure (.triangle [p1, p2, p3] color token.line token.column)

/-- `Parser.primary`: literals, identifiers and parenthesized expressions;
anything else throws `Unexpected token`. -/
def primaryP : Nat → PM Expression
  | 0 => throwPE fuelError
  | n + 1 => do
    if (← matchPM [.NUMBER]) then
      let token ← previousPM
      pure (.numberLit token.value token.line token.column)
    else if (← matchPM [.STRING]) then
      let token ← previousPM
      pure (.stringLit token.value token.line token.column)
    else if (← matchPM [.COLOR]) then
      let token ← previousPM
      pure (.colorLit token.value token.line token.column)
    else if (← matchPM [.IDENTIFIER]) then
      let token ← previousPM
      pure (.identifier token.value token.line token.column)
    else if (← matchPM [.LPAREN]) then
      let expr ← expressionP n
      let _ ← consumePM .RPAREN "Expected ) after expression"
      pure expr
    else do
      let token ← peekPM
      throwPE ⟨"Unexpected token: " ++ token.value, token.line, token.column⟩

end

/-- The token types that start a dedicated statement form — the `switch`
cases of `Parser.synchronize`. -/
def stmtStartKeywords : List TokenType :=
  [.LET, .FN, .IF, .REPEAT, .ANIMATE, .SCENE, .RETURN]

theorem advanceP_tokens (st : ParserState) : (advanceP st).tokens = st.tokens := by
  unfold advanceP
  split <;> rfl

theorem getD_mem_or_eq (l : List Token) : ∀ (n : Nat) (d : Token),
    l.getD n d ∈ l ∨ l.getD n d = d := by
  induction l with
  | nil => intro n d; right; simp
  | cons a l ih =>
    intro n d
    cases n with
    | zero => left; simp
    | succ n =>
      rcases ih n d with h | h
      · left
        simp only [List.getD_cons_succ]
        exact List.mem_cons_of_mem a h
      · right
        simpa using h

theorem isAtEnd_false_lt (st : ParserState) (h : isAtEnd st = false) :
    st.current < st.tokens.length := by
  by_contra hc
  push_neg at hc
  have : peekT st = defaultToken := by
    unfold peekT
    exact List.getD_eq_default _ _ hc
  unfold isAtEnd at h
  rw [this] at h
  simp [defaultToken] at h

/-- The scanning `while` loop of `Parser.synchronize`: stop at end of input,
after having consumed a newline token, or in front of a statement-starting
keyword; otherwise advance.  The loop is indexed by a step bound for
totality; every non-stopping step strictly advances `current`, so with the
bound `tokenize` output lengths provide the zero-fuel branch is unreachable
(see `syncGo_fuel_irrelevant`): the function is extensionally the unbounded
TypeScript loop. -/
def syncGo : Nat → ParserState → ParserState
  | 0, st => st
  | fuel + 1, st =>
    if isAtEnd st then st
    else if (previousT st).type == .NEWLINE then st
    else if stmtStartKeywords.contains (peekT st).type then st
    else syncGo fuel (advanceP st)

/-- With fuel covering the tokens that remain, `syncGo` never consults its
bound: any two sufficient bounds give the same result, so the TypeScript
`while` loop is captured exactly. -/
theorem syncGo_fuel_irrelevant (fuel1 fuel2 : Nat) (st : ParserState)
    (h1 : st.tokens.length ≤ fuel1 + st.current) (h2 : st.tokens.length ≤ fuel2 + st.current) :
    syncGo fuel1 st = syncGo fuel2 st := by
  induction fuel1 generalizing fuel2 st with
  | zero =>
    have hend : isAtEnd st = true := by
      unfold isAtEnd peekT
      rw [List.getD_eq_default _ _ (by omega)]
      rfl
    cases fuel2 with
    | zero => rfl
    | succ fuel2 => rw [syncGo, syncGo, if_pos hend]
  | succ fuel1 ih =>
    cases fuel2 with
    | zero =>
      have hend : isAtEnd st = true := by
        unfold isAtEnd peekT
        rw [List.getD_eq_default _ _ (by omega)]
        rfl
      rw [syncGo, syncGo, if_pos hend]
    | succ fuel2 =>
      rw [syncGo, syncGo]
      by_cases he : isAtEnd st
      · rw [if_pos he, if_pos he]
      · rw [if_neg he, if_neg he]
        by_cases hn : (previousT st).type == TokenType.NEWLINE
        · rw [if_pos hn, if_pos hn]
        · rw [if_neg hn, if_neg hn]
          by_cases hk : stmtStartKeywords.contains (peekT st).type
          · rw [if_pos hk, if_pos hk]
          · rw [if_neg hk, if_neg hk]
            have hlt := isAtEnd_false_lt st (by simpa using he)
            have hadv : advanceP st = { st with current := st.current + 1 } := by
              unfold advanceP
              simp [he]
            apply ih
            · rw [hadv]
              simp only []
              omega
            · rw [hadv]
              simp only []
              omega

/-- `Parser.synchronize`: discard the offending token, then scan forward. -/
def synchronize (st : ParserState) : ParserState :=
  syncGo (st.tokens.length + 1) (advanceP st)

/-- The `while (!isAtEnd())` statement loop of `Parser.parse`, fuel-indexed
like the statement parsers: parsed statements are collected in order, and a
thrown `ParseError` is caught, recorded (the TypeScript logs it with
`console.error` — the log is the second component) and recovered from via
`synchronize`. -/
def parseLoopP : Nat → ParserState → (List Statement × List ParseError) × ParserState
  | 0, st => (([], [fuelError]), st)
  | n + 1, st =>
    if isAtEnd st then (([], []), st)
    else
      match statementP n st with
      | (Except.ok s, st2) =>
        let r := parseLoopP n st2
        ((s :: r.1.1, r.1.2), r.2)
      | (Except.error e, st2) =>
        let st3 := synchronize st2
        let r := parseLoopP n st3
        ((r.1.1, e :: r.1.2), r.2)

/-- Fuel bound handed to the embedded `Parser.parse`: the recursion depth of
one parse is bounded by a small multiple of the token count. -/
def parseFuel (tokens : List Token) : Nat := tokens.length * 16 + 16

/-- `Parser.parse`: parse statements until end of input and wrap them in a
`Program` root; the second component is the list of syntax errors that were
caught and logged (and not returned) during the parse. -/
def parseProgram (tokens : List Token) : Program × List ParseError :=
  let r := parseLoopP (parseFuel tokens) { tokens := tokens, current := 0 }
  ({ body := r.1.1, line := 1, column := 1 }, r.1.2)

/-- A semantic diagnostic (`class SemanticError` of `semantic/analyzer.ts`):
the message passed to the constructor together with the reported
position. -/
structure SemanticError where
  message : String
  line : Nat
  column : Nat
  deriving DecidableEq, Repr

/-- The formatted message a `SemanticError` carries
(`Semantic error at line L, column C: msg`). -/
def SemanticError.formatted (e : SemanticError) : String :=
  "Semantic error at line " ++ toString e.line ++ ", column " ++ toString e.column ++ ": " ++
    e.message

/-- A symbol-table entry: `{ type, line, column }`. -/
structure SymInfo where
  type : String
  line : Nat
  column : Nat
  deriving DecidableEq, Repr

/-- One scope frame (the TypeScript `SymbolTable` object), as an association
list with unique keys. -/
def Scope : Type := List (String × SymInfo)

/-- Analyzer state: the scope stack and the error list of
`class SemanticAnalyzer`.  The innermost scope is the head of `scopes`
(the TypeScript array keeps it at the end); errors are appended in the
order they are pushed. -/
structure AnalyzerState where
  scopes : List Scope
  errors : List SemanticError

/-- `SemanticAnalyzer.enterScope`. -/
def enterScope (st : AnalyzerState) : AnalyzerState :=
  { st with scopes := ([] : Scope) :: st.scopes }

/-- `SemanticAnalyzer.exitScope`. -/
def exitScope (st : AnalyzerState) : AnalyzerState :=
  { st with scopes := st.scopes.tail }

/-- `SemanticAnalyzer.declare`: a duplicate name in the current frame pushes
an error, otherwise the name is added to the current frame. -/
def declareA (name : String) (ty : String) (line column : Nat) (st : AnalyzerState) :
    AnalyzerState :=
  match st.scopes with
  | [] => st
  | sc :: rest =>
    if (sc.lookup name).isSome then
      { st with errors := st.errors ++
          [⟨"Variable \x27" ++ name ++ "\x27 is already declared in this scope", line, column⟩] }
    else
      { st with scopes := ((name, ⟨ty, line, column⟩) :: sc) :: rest }

/-- The innermost-to-outermost walk of `SemanticAnalyzer.resolve`. -/
def lookupScopes (name : String) : List Scope → Option SymInfo
  | [] => none
  | sc :: rest =>
    match sc.lookup name with
    | some info => some info
    | none => lookupScopes name rest

/-- `SemanticAnalyzer.resolve`: no match across the scope stack pushes an
undefined-variable error. -/
def resolveA (name : String) (line column : Nat) (st : AnalyzerState) : AnalyzerState :=
  match lookupScopes name st.scopes with
  | some _ => st
  | none =>
    { st with errors := st.errors ++ [⟨"Undefined variable \x27" ++ name ++ "\x27", line, column⟩] }

/-- The parameter-declaration loop of
`SemanticAnalyzer.analyzeFunctionDeclaration`. -/
def declareParams : List Ident → AnalyzerState → AnalyzerState
  | [], st => st
  | p :: rest, st => declareParams rest (declareA p.name "parameter" p.line p.column st)

mutual

/-- `SemanticAnalyzer.analyzeStatement`: one case per statement kind.
Animate blocks are not analyzed (the TypeScript leaves their commands to
code-generation time). -/
def analyzeStatement : Statement → AnalyzerState → AnalyzerState
  | .letStmt ident value _ _, st =>
    declareA ident.name "variable" ident.line ident.column (analyzeExpression value st)
  | .fnDecl name params body _ _, st =>
    exitScope (analyzeStatements body
      (declareParams params (enterScope (declareA name.name "function" name.line name.column st))))
  | .returnStmt value _ _, st =>
    match value with
    | some v => analyzeExpression v st
    | none => st
  | .ifStmt cond thenBranch elseBranch _ _, st =>
    let st2 := analyzeStatements thenBranch (analyzeExpression cond st)
    match elseBranch with
    | some es => analyzeStatements es st2
    | none => st2
  | .repeatStmt times body _ _, st =>
    analyzeStatements body (analyzeExpression times st)
  | .animateBlock _ _ _, st => st
  | .sceneBlock _ body _ _, st =>
    exitScope (analyzeStatements body (enterScope st))
  | .exprStmt e _ _, st => analyzeExpression e st

/-- The statement loops of `SemanticAnalyzer.analyze` and the per-kind body
walks. -/
def analyzeStatements : List Statement → AnalyzerState → AnalyzerState
  | [], st => st
  | s :: rest, st => analyzeStatements rest (analyzeStatement s st)

/-- `SemanticAnalyzer.analyzeExpression`: identifiers resolve, literals are
always valid, compound expressions analyze their children in field order. -/
def analyzeExpression : Expression → AnalyzerState → AnalyzerState
  | .identifier name l c, st => resolveA name l c st
  | .numberLit _ _ _, st => st
  | .stringLit _ _ _, st => st
  | .colorLit _ _ _, st => st
  | .binary _ left right _ _, st => analyzeExpression right (analyzeExpression left st)
  | .call callee args _ _, st => analyzeExpressions args (analyzeExpression callee st)
  | .circle x y size color _ _, st =>
    analyzeExpression color (analyzeExpression size (analyzeExpression y (analyzeExpression x st)))
  | .rect x y width height color _ _, st =>
    analyzeExpression color (analyzeExpression height (analyzeExpression width
      (analyzeExpression y (analyzeExpression x st))))
  | .lineShape x1 y1 x2 y2 color _ _, st =>
    analyzeExpression color (analyzeExpression y2 (analyzeExpression x2
      (analyzeExpression y1 (analyzeExpression x1 st))))
  | .triangle points color _ _, st => analyzeExpression color (analyzePoints points st)

/-- The call-argument loop of `SemanticAnalyzer.analyzeExpression`. -/
def analyzeExpressions : List Expression → AnalyzerState → AnalyzerState
  | [], st => st
  | e :: rest, st => analyzeExpressions rest (analyzeExpression e st)

/-- The triangle-point loop of `SemanticAnalyzer.analyzeExpression`. -/
def analyzePoints : List (Expression × Expression) → AnalyzerState → AnalyzerState
  | [], st => st
  | (x, y) :: rest, st => analyzePoints rest (analyzeExpression y (analyzeExpression x st))

end

/-- The state a freshly constructed `SemanticAnalyzer` holds: one global
scope, no errors. -/
def newAnalyzer : AnalyzerState := { scopes := [([] : Scope)], errors := [] }

/-- `SemanticAnalyzer.analyze` on a given analyzer state: reset the error
list, analyze every top-level statement, return the collected errors. -/
def analyzeRun (p : Program) (st : AnalyzerState) : List SemanticError :=
  (analyzeStatements p.body { st with errors := [] }).errors

/-- `new SemanticAnalyzer().analyze(program)` — the form the compiler facade
uses. -/
def analyzeProgram (p : Program) : List SemanticError := analyzeRun p newAnalyzer

/-- The indentation prefix of the generator: two spaces repeated
`this.indent` times. -/
def indentation (n : Nat) : String := String.mk (List.replicate (2 * n) ' ')

/-- `CodeGenerator.emitLine`: an indented line of output. -/
def emitLineG (ind : Nat) (code : String) : String := indentation ind ++ code ++ "\n"

/-- The comma-space join of the parameter names in
`CodeGenerator.generateFunctionDeclaration`. -/
def joinParams (params : List Ident) : String :=
  String.intercalate ", " (params.map (fun p => p.name))

theorem expr_sizeOf_pos (e : Expression) : 0 < sizeOf e := by
  cases e <;> simp_arith

theorem list_sizeOf_pos {α : Type} [SizeOf α] (l : List α) : 0 < sizeOf l := by
  cases l <;> simp_arith

/-- `CodeGenerator.generateCircle`, with the four sub-expression emissions
passed in already generated (the TypeScript interleaves the recursive
`generateExpression` calls at exactly these positions). -/
def genCircle (ind : Nat) (xS yS sizeS colorS : String) : String :=
  "(function() \x7b\n" ++
    emitLineG (ind + 1) "ctx.save();" ++
    indentation (ind + 1) ++ "const x = " ++ xS ++ ";\n" ++
    indentation (ind + 1) ++ "const y = " ++ yS ++ ";\n" ++
    indentation (ind + 1) ++ "const size = " ++ sizeS ++ ";\n" ++
    indentation (ind + 1) ++ "const color = " ++ colorS ++ ";\n" ++
    emitLineG (ind + 1) "applyTransform(x, y);" ++
    emitLineG (ind + 1) "ctx.beginPath();" ++
    emitLineG (ind + 1) "ctx.arc(0, 0, size, 0, Math.PI * 2);" ++
    emitLineG (ind + 1) "ctx.fillStyle = color;" ++
    emitLineG (ind + 1) "ctx.fill();" ++
    emitLineG (ind + 1) "ctx.restore();" ++
    indentation ind ++ "\x7d)()"

/-- `CodeGenerator.generateRect` (the rectangle is drawn centered on the
given point via half-width/half-height offsets), sub-expressions already
generated. -/
def genRect (ind : Nat) (xS yS wS hS colorS : String) : String :=
  "(function() \x7b\n" ++
    emitLineG (ind + 1) "ctx.save();" ++
    indentation (ind + 1) ++ "const x = " ++ xS ++ ";\n" ++
    indentation (ind + 1) ++ "const y = " ++ yS ++ ";\n" ++
    indentation (ind + 1) ++ "const w = " ++ wS ++ ";\n" ++
    indentation (ind + 1) ++ "const h = " ++ hS ++ ";\n" ++
    indentation (ind + 1) ++ "const color = " ++ colorS ++ ";\n" ++
    emitLineG (ind + 1) "applyTransform(x, y);" ++
    emitLineG (ind + 1) "ctx.fillStyle = color;" ++
    emitLineG (ind + 1) "ctx.fillRect(-w/2, -h/2, w, h);" ++
    emitLineG (ind + 1) "ctx.restore();" ++
    indentation ind ++ "\x7d)()"

/-- `CodeGenerator.generateLine`, sub-expressions already generated. -/
def genLine (ind : Nat) (x1S y1S x2S y2S colorS : String) : String :=
  "(function() \x7b\n" ++
    emitLineG (ind + 1) "ctx.save();" ++
    indentation (ind + 1) ++ "const color = " ++ colorS ++ ";\n" ++
    emitLineG (ind + 1) "ctx.strokeStyle = color;" ++
    emitLineG (ind + 1) "ctx.beginPath();" ++
    indentation (ind + 1) ++ "ctx.moveTo(" ++ x1S ++ ", " ++ y1S ++ ");\n" ++
    indentation (ind + 1) ++ "ctx.lineTo(" ++ x2S ++ ", " ++ y2S ++ ");\n" ++
    emitLineG (ind + 1) "ctx.stroke();" ++
    emitLineG (ind + 1) "ctx.restore();" ++
    indentation ind ++ "\x7d)()"

/-- The fixed frame of `CodeGenerator.generateTriangle` around the emitted
point list, color sub-expression already generated. -/
def genTriangleFrame (ind : Nat) (colorS pointsS : String) : String :=
  "(function() \x7b\n" ++
    emitLineG (ind + 1) "ctx.save();" ++
    indentation (ind + 1) ++ "const color = " ++ colorS ++ ";\n" ++
    emitLineG (ind + 1) "ctx.fillStyle = color;" ++
    emitLineG (ind + 1) "ctx.beginPath();" ++
    pointsS ++
    emitLineG (ind + 1) "ctx.closePath();" ++
    emitLineG (ind + 1) "ctx.fill();" ++
    emitLineG (ind + 1) "ctx.restore();" ++
    indentation ind ++ "\x7d)()"

mutual

/-- `CodeGenerator.generateExpression`: literals emit verbatim (quoted for
string/color), binary expressions emit parenthesized infix form, calls emit
the callee followed by comma-separated arguments, shapes emit their
self-contained drawing blocks (`generateCircle`/`generateRect`/
`generateLine`/`generateTriangle`). -/
def genExpression (ind : Nat) : Expression → String
  | .numberLit v _ _ => v
  | .stringLit v _ _ => "\"" ++ v ++ "\""
  | .colorLit v _ _ => "\"" ++ v ++ "\""
  | .identifier name _ _ => name
  | .binary op left right _ _ =>
    "(" ++ genExpression ind left ++ " " ++ op ++ " " ++ genExpression ind right ++ ")"
  | .call callee args _ _ => genExpression ind callee ++ "(" ++ genArgs ind args ++ ")"
  | .circle x y size color _ _ =>
    genCircle ind (genExpression (ind + 1) x) (genExpression (ind + 1) y)
      (genExpression (ind + 1) size) (genExpression (ind + 1) color)
  | .rect x y width height color _ _ =>
    genRect ind (genExpression (ind + 1) x) (genExpression (ind + 1) y)
      (genExpression (ind + 1) width) (genExpression (ind + 1) height)
      (genExpression (ind + 1) color)
  | .lineShape x1 y1 x2 y2 color _ _ =>
    genLine ind (genExpression (ind + 1) x1) (genExpression (ind + 1) y1)
      (genExpression (ind + 1) x2) (genExpression (ind + 1) y2)
      (genExpression (ind + 1) color)
  | .triangle points color _ _ =>
    genTriangleFrame ind (genExpression (ind + 1) color) (genTrianglePoints (ind + 1) true points)

/-- The argument loop of the call case of `CodeGenerator.generateExpression`
(a comma-space before every argument except the first). -/
def genArgs (ind : Nat) : List Expression → String
  | [] => ""
  | e :: rest => genExpression ind e ++ genArgsRest ind rest

/-- Non-first call arguments. -/
def genArgsRest (ind : Nat) : List Expression → String
  | [] => ""
  | e :: rest => ", " ++ genExpression ind e ++ genArgsRest ind rest

/-- The `points.forEach` loop of `CodeGenerator.generateTriangle`:
`moveTo` for the first point, `lineTo` for the rest. -/
def genTrianglePoints (ind : Nat) (isFirst : Bool) : List (Expression × Expression) → String
  | [] => ""
  | (x, y) :: rest =>
    indentation ind ++ (if isFirst then "ctx.moveTo(" else "ctx.lineTo(") ++
      genExpression ind x ++ ", " ++ genExpression ind y ++ ");\n" ++
      genTrianglePoints ind false rest

end

mutual

/-- `CodeGenerator.generateStatement` together with the dedicated per-kind
methods; the mutable `output`/`indent` pair of the generator becomes a returned
string and an indentation argument (output is only ever appended to,
indentation is restored after each block). -/
def genStatement (ind : Nat) : Statement → String
  | .letStmt ident value _ _ =>
    indentation ind ++ "let " ++ ident.name ++ " = " ++ genExpression ind value ++ ";\n"
  | .fnDecl name params body _ _ =>
    indentation ind ++ "function " ++ name.name ++ "(" ++ joinParams params ++ ") \x7b\n" ++
      genStatements (ind + 1) body ++ emitLineG ind "\x7d"
  | .returnStmt value _ _ =>
    indentation ind ++ "return" ++
      (match value with
        | some v => " " ++ genExpression ind v
        | none => "") ++ ";\n"
  | .ifStmt cond thenBranch elseBranch _ _ =>
    indentation ind ++ "if (" ++ genExpression ind cond ++ ") \x7b\n" ++
      genStatements (ind + 1) thenBranch ++
      (match elseBranch with
        | some es => emitLineG ind "\x7d else \x7b" ++ genStatements (ind + 1) es
        | none => "") ++
      emitLineG ind "\x7d"
  | .repeatStmt times body _ _ =>
    indentation ind ++ "for (let __i = 0; __i < " ++ genExpression ind times ++
      "; __i++) \x7b\n" ++ genStatements (ind + 1) body ++ emitLineG ind "\x7d"
  | .animateBlock anims _ _ =>
    emitLineG ind "// Animation loop" ++
      emitLineG ind "function animate() \x7b" ++
      emitLineG (ind + 1) "clear();" ++
      genAnimCommands (ind + 1) anims ++
      emitLineG (ind + 1) "requestAnimationFrame(animate);" ++
      emitLineG ind "\x7d" ++
      emitLineG ind "animate();"
  | .sceneBlock name body _ _ =>
    emitLineG ind ("// Scene: " ++ name) ++
      emitLineG ind ("function scene_" ++ name ++ "() \x7b") ++
      genStatements (ind + 1) body ++
      emitLineG ind "\x7d" ++
      emitLineG ind ("scene_" ++ name ++ "();")
  | .exprStmt e _ _ => indentation ind ++ genExpression ind e ++ ";\n"

/-- The statement loops of `CodeGenerator.generate` and of every block
body. -/
def genStatements (ind : Nat) : List Statement → String
  | [] => ""
  | s :: rest => genStatement ind s ++ genStatements ind rest

/-- `CodeGenerator.generateAnimationCommand`: each command is an in-place
mutation of the shared transform record — move targets `x` for left/right
and `y` otherwise, subtracting for left/up and adding otherwise; rotate adds
to `rotation`; scale multiplies `scale`; fade subtracts from `opacity`. -/
def genAnimCommand (ind : Nat) : AnimCommand → String
  | .move amount direction _ _ =>
    let axis := if direction == "left" || direction == "right" then "x" else "y"
    let sign := if direction == "left" || direction == "up" then "-" else "+"
    indentation ind ++ ("animationState." ++ axis ++ " " ++ sign ++ "= ") ++
      genExpression ind amount ++ ";\n"
  | .rotate angle _ _ =>
    indentation ind ++ "animationState.rotation += " ++ genExpression ind angle ++ ";\n"
  | .scale factor _ _ =>
    indentation ind ++ "animationState.scale *= " ++ genExpression ind factor ++ ";\n"
  | .fade amount _ _ =>
    indentation ind ++ "animationState.opacity -= " ++ genExpression ind amount ++ ";\n"

/-- The `animations` loop of `CodeGenerator.generateAnimateBlock`. -/
def genAnimCommands (ind : Nat) : List AnimCommand → String
  | [] => ""
  | c :: rest => genAnimCommand ind c ++ genAnimCommands ind rest

end

/-- The fixed runtime preamble `CodeGenerator.generate` emits before the
program body: canvas acquisition, the shared transform-state record, the
transform-application and clear helpers, and the opening of the main
wrapper. -/
def preamble : String :=
  emitLineG 0 "// MFlow compiled output - Created by Mehdi" ++
  emitLineG 0 "const canvas = document.getElementById(\"mflow-canvas\");" ++
  emitLineG 0 "const ctx = canvas.getContext(\"2d\");" ++
  emitLineG 0 "" ++
  emitLineG 0 "// Animation state" ++
  emitLineG 0 "let animationState = \x7b" ++
  emitLineG 1 "x: 0," ++
  emitLineG 1 "y: 0," ++
  emitLineG 1 "rotation: 0," ++
  emitLineG 1 "scale: 1," ++
  emitLineG 1 "opacity: 1" ++
  emitLineG 0 "\x7d;" ++
  emitLineG 0 "" ++
  emitLineG 0 "// Helper functions" ++
  emitLineG 0 "function resetTransform() \x7b" ++
  emitLineG 1 "ctx.setTransform(1, 0, 0, 1, 0, 0);" ++
  emitLineG 0 "\x7d" ++
  emitLineG 0 "" ++
  emitLineG 0 "function applyTransform(x, y) \x7b" ++
  emitLineG 1 "ctx.translate(x + animationState.x, y + animationState.y);" ++
  emitLineG 1 "ctx.rotate(animationState.rotation * Math.PI / 180);" ++
  emitLineG 1 "ctx.scale(animationState.scale, animationState.scale);" ++
  emitLineG 1 "ctx.globalAlpha = animationState.opacity;" ++
  emitLineG 0 "\x7d" ++
  emitLineG 0 "" ++
  emitLineG 0 "// Clear canvas" ++
  emitLineG 0 "function clear() \x7b" ++
  emitLineG 1 "ctx.clearRect(0, 0, canvas.width, canvas.height);" ++
  emitLineG 0 "\x7d" ++
  emitLineG 0 "" ++
  emitLineG 0 "// Main program" ++
  emitLineG 0 "(function main() \x7b"

/-- The mutable `output`/`indent` instance fields of `class CodeGenerator`. -/
structure GenState where
  indent : Nat
  output : String
  deriving DecidableEq, Repr

/-- `CodeGenerator.generate`: the method begins by resetting `this.output`
to the empty string and `this.indent` to zero, so whatever state the generator instance carries is
discarded; the result is the preamble, the program body at one indent level,
and the closing of the main wrapper. -/
def generate (g : GenState) (program : Program) : String :=
  let _reset : GenState := { indent := 0, output := "" }
  preamble ++ genStatements 1 program.body ++ emitLineG 0 "\x7d)();"

/-- `interface CompilationResult` of the compiler facade. -/
structure CompilationResult where
  success : Bool
  output : Option String
  errors : Option (List String)
  deriving DecidableEq, Repr

/-- `MFlowCompiler.compile`: tokenize, parse, analyze; a non-empty semantic
error list yields a failure carrying the formatted semantic messages, and
otherwise a fresh generator emits the output.  The TypeScript wraps the
stages in a `try`/`catch`, but none of them throws outward — the parser
catches its own `ParseError`s (they are logged, not returned) and the lexer,
analyzer and generator are total — so the `catch` arm is dead for the
embedded pipeline. -/
def compile (sourceCode : String) : CompilationResult :=
  let tokens := tokenize sourceCode
  let parsed := parseProgram tokens
  let semanticErrors := analyzeProgram parsed.1
  if semanticErrors.length > 0 then
    { success := false, output := none,
      errors := some (semanticErrors.map SemanticError.formatted) }
  else
    { success := true, output := some (generate { indent := 0, output := "" } parsed.1),
      errors := none }

/-- Modelled from the spec: the host-runtime counted-loop construct (the
external collaborator of §6 executes the emitted source under standard imperative
semantics).  A loop of the emitted shape
`for (let __i = 0; __i < bound; __i++) body` initializes once, then before
every iteration evaluates its condition — and hence its bound expression —
and runs the body while the condition holds.  For a bound whose value is the
constant `bound`, starting at counter value `i`, the result counts
`(condition evaluations, body executions)`. -/
def forLoopRun (bound i : Nat) : Nat × Nat :=
  if i < bound then
    let r := forLoopRun bound (i + 1)
    (r.1 + 1, r.2 + 1)
  else (1, 0)
termination_by bound - i

theorem checkT_false_of_peek_ne (st : ParserState) (ty : TokenType)
    (h : (peekT st).type ≠ ty) : checkT st ty = false := by
  unfold checkT
  split
  · rfl
  · simpa using h

theorem matchT_none (st : ParserState) (types : List TokenType)
    (h : ∀ ty ∈ types, checkT st ty = false) : matchT st types = (false, st) := by
  induction types with
  | nil => rfl
  | cons ty rest ih =>
    unfold matchT
    rw [h ty (by simp)]
    simp only [Bool.false_eq_true, if_false]
    exact ih (fun u hu => h u (List.mem_cons_of_mem ty hu))

theorem syncGo_stop (fuel : Nat) : ∀ (st : ParserState),
    st.tokens.length ≤ fuel + st.current →
    (∀ t ∈ st.tokens, t.type ≠ TokenType.NEWLINE) →
      isAtEnd (syncGo fuel st) = true ∨
        stmtStartKeywords.contains (peekT (syncGo fuel st)).type = true := by
  induction fuel with
  | zero =>
    intro st hinv h
    left
    show isAtEnd st = true
    unfold isAtEnd peekT
    rw [List.getD_eq_default _ _ (by omega)]
    rfl
  | succ fuel ih =>
    intro st hinv h
    rw [syncGo]
    by_cases he : isAtEnd st
    · rw [if_pos he]
      left
      exact he
    · rw [if_neg he]
      by_cases hn : (previousT st).type == TokenType.NEWLINE
      · exfalso
        have hn2 : (previousT st).type = TokenType.NEWLINE := by simpa using hn
        rcases getD_mem_or_eq st.tokens (st.current - 1) defaultToken with hm | hd
        · exact h _ hm hn2
        · have heof : (previousT st).type = TokenType.EOF := by
            unfold previousT
            rw [hd]
            rfl
          rw [hn2] at heof
          simp at heof
      · rw [if_neg hn]
        by_cases hk : stmtStartKeywords.contains (peekT st).type
        · rw [if_pos hk]
          right
          exact hk
        · rw [if_neg hk]
          have hlt := isAtEnd_false_lt st (by simpa using he)
          have hadv : advanceP st = { st with current := st.current + 1 } := by
            unfold advanceP
            simp [he]
          apply ih
          · rw [hadv]
            simp only []
            omega
          · intro t ht
            exact h t (by rwa [advanceP_tokens] at ht)

/-- On a token sequence without newline tokens, `Parser.synchronize` can only
stop at end of input or in front of a statement-starting keyword. -/
theorem synchronize_stop (st : ParserState)
    (h : ∀ t ∈ st.tokens, t.type ≠ TokenType.NEWLINE) :
    isAtEnd (synchronize st) = true ∨
      stmtStartKeywords.contains (peekT (synchronize st)).type = true := by
  unfold synchronize
  apply syncGo_stop
  · rw [advanceP_tokens]
    omega
  · intro t ht
    exact h t (by rwa [advanceP_tokens] at ht)

theorem forLoopRun_eq (bound i : Nat) : forLoopRun bound i = (bound - i + 1, bound - i) := by
  induction i using forLoopRun.induct bound with
  | case1 i h ih =>
    rw [forLoopRun]
    simp only [h, if_true]
    rw [ih]
    simp only [Prod.mk.injEq]
    constructor <;> omega
  | case2 i h =>
    rw [forLoopRun]
    simp only [h, if_false]
    simp only [Prod.mk.injEq]
    constructor <;> omega

/-! Concrete token sequences of the sources used in the claim theorems,
computed once through the full lexer. -/

theorem tokenizeEvalLet : tokenize "let" =
    [⟨.LET, "let", 1, 1⟩, ⟨.EOF, "", 1, 4⟩] := by
  simp [tokenize, tokenizeLoop, nextToken, skipTrivia, skipWhitespace, skipToLineEnd,
    readWhile, readIdentifier, readNumber, readNumberLoop, readString, readStringLoop,
    readColor, opToken, singleCharToken, twoCharToken, advanceL, initLexState,
    isCommentStart, isWsChar, isDigitChar, isIdentStartChar, isIdentChar, isHexChar, keywords]

theorem tokenizeEvalLetXX : tokenize "let x = x" =
    [⟨.LET, "let", 1, 1⟩, ⟨.IDENTIFIER, "x", 1, 5⟩, ⟨.ASSIGN, "=", 1, 7⟩,
      ⟨.IDENTIFIER, "x", 1, 9⟩, ⟨.EOF, "", 1, 10⟩] := by
  simp [tokenize, tokenizeLoop, nextToken, skipTrivia, skipWhitespace, skipToLineEnd,
    readWhile, readIdentifier, readNumber, readNumberLoop, readString, readStringLoop,
    readColor, opToken, singleCharToken, twoCharToken, advanceL, initLexState,
    isCommentStart, isWsChar, isDigitChar, isIdentStartChar, isIdentChar, isHexChar, keywords]

theorem tokenizeEvalLetXY : tokenize "let x = y" =
    [⟨.LET, "let", 1, 1⟩, ⟨.IDENTIFIER, "x", 1, 5⟩, ⟨.ASSIGN, "=", 1, 7⟩,
      ⟨.IDENTIFIER, "y", 1, 9⟩, ⟨.EOF, "", 1, 10⟩] := by
  simp [tokenize, tokenizeLoop, nextToken, skipTrivia, skipWhitespace, skipToLineEnd,
    readWhile, readIdentifier, readNumber, readNumberLoop, readString, readStringLoop,
    readColor, opToken, singleCharToken, twoCharToken, advanceL, initLexState,
    isCommentStart, isWsChar, isDigitChar, isIdentStartChar, isIdentChar, isHexChar, keywords]

theorem tokenizeEvalFwd : tokenize "g()\nfn g() \x7b \x7d" =
    [⟨.IDENTIFIER, "g", 1, 1⟩, ⟨.LPAREN, "(", 1, 2⟩, ⟨.RPAREN, ")", 2, 3⟩,
      ⟨.FN, "fn", 2, 2⟩, ⟨.IDENTIFIER, "g", 2, 5⟩, ⟨.LPAREN, "(", 2, 6⟩,
      ⟨.RPAREN, ")", 2, 7⟩, ⟨.LBRACE, "\x7b", 2, 9⟩, ⟨.RBRACE, "\x7d", 2, 11⟩,
      ⟨.EOF, "", 2, 12⟩] := by
  simp [tokenize, tokenizeLoop, nextToken, skipTrivia, skipWhitespace, skipToLineEnd,
    readWhile, readIdentifier, readNumber, readNumberLoop, readString, readStringLoop,
    readColor, opToken, singleCharToken, twoCharToken, advanceL, initLexState,
    isCommentStart, isWsChar, isDigitChar, isIdentStartChar, isIdentChar, isHexChar, keywords]

theorem tokenizeEvalBack : tokenize "fn g() \x7b \x7d\ng()" =
    [⟨.FN, "fn", 1, 1⟩, ⟨.IDENTIFIER, "g", 1, 4⟩, ⟨.LPAREN, "(", 1, 5⟩,
      ⟨.RPAREN, ")", 1, 6⟩, ⟨.LBRACE, "\x7b", 1, 8⟩, ⟨.RBRACE, "\x7d", 2, 10⟩,
      ⟨.IDENTIFIER, "g", 2, 2⟩, ⟨.LPAREN, "(", 2, 3⟩, ⟨.RPAREN, ")", 2, 4⟩,
      ⟨.EOF, "", 2, 5⟩] := by
  simp [tokenize, tokenizeLoop, nextToken, skipTrivia, skipWhitespace, skipToLineEnd,
    readWhile, readIdentifier, readNumber, readNumberLoop, readString, readStringLoop,
    readColor, opToken, singleCharToken, twoCharToken, advanceL, initLexState,
    isCommentStart, isWsChar, isDigitChar, isIdentStartChar, isIdentChar, isHexChar, keywords]

theorem tokenizeEvalRec : tokenize "fn g() \x7b return g() \x7d" =
    [⟨.FN, "fn", 1, 1⟩, ⟨.IDENTIFIER, "g", 1, 4⟩, ⟨.LPAREN, "(", 1, 5⟩,
      ⟨.RPAREN, ")", 1, 6⟩, ⟨.LBRACE, "\x7b", 1, 8⟩, ⟨.RETURN, "return", 1, 10⟩,
      ⟨.IDENTIFIER, "g", 1, 17⟩, ⟨.LPAREN, "(", 1, 18⟩, ⟨.RPAREN, ")", 1, 19⟩,
      ⟨.RBRACE, "\x7d", 1, 21⟩, ⟨.EOF, "", 1, 22⟩] := by
  simp [tokenize, tokenizeLoop, nextToken, skipTrivia, skipWhitespace, skipToLineEnd,
    readWhile, readIdentifier, readNumber, readNumberLoop, readString, readStringLoop,
    readColor, opToken, singleCharToken, twoCharToken, advanceL, initLexState,
    isCommentStart, isWsChar, isDigitChar, isIdentStartChar, isIdentChar, isHexChar, keywords]

theorem tokenizeEvalCmp : tokenize "a < b < c" =
    [⟨.IDENTIFIER, "a", 1, 1⟩, ⟨.LESS_THAN, "<", 1, 3⟩, ⟨.IDENTIFIER, "b", 1, 5⟩,
      ⟨.LESS_THAN, "<", 1, 7⟩, ⟨.IDENTIFIER, "c", 1, 9⟩, ⟨.EOF, "", 1, 10⟩] := by
  simp [tokenize, tokenizeLoop, nextToken, skipTrivia, skipWhitespace, skipToLineEnd,
    readWhile, readIdentifier, readNumber, readNumberLoop, readString, readStringLoop,
    readColor, opToken, singleCharToken, twoCharToken, advanceL, initLexState,
    isCommentStart, isWsChar, isDigitChar, isIdentStartChar, isIdentChar, isHexChar, keywords]

theorem tokenizeEvalSkip : tokenize "@ 1\n2" =
    [⟨.ILLEGAL, "@", 1, 1⟩, ⟨.NUMBER, "1", 2, 3⟩, ⟨.NUMBER, "2", 2, 2⟩,
      ⟨.EOF, "", 2, 3⟩] := by
  simp [tokenize, tokenizeLoop, nextToken, skipTrivia, skipWhitespace, skipToLineEnd,
    readWhile, readIdentifier, readNumber, readNumberLoop, readString, readStringLoop,
    readColor, opToken, singleCharToken, twoCharToken, advanceL, initLexState,
    isCommentStart, isWsChar, isDigitChar, isIdentStartChar, isIdentChar, isHexChar, keywords]

theorem tokenizeEvalAtSign : tokenize "@" =
    [⟨.ILLEGAL, "@", 1, 1⟩, ⟨.EOF, "", 1, 2⟩] := by
  simp [tokenize, tokenizeLoop, nextToken, skipTrivia, skipWhitespace, skipToLineEnd,
    readWhile, readIdentifier, readNumber, readNumberLoop, readString, readStringLoop,
    readColor, opToken, singleCharToken, twoCharToken, advanceL, initLexState,
    isCommentStart, isWsChar, isDigitChar, isIdentStartChar, isIdentChar, isHexChar, keywords]

/-! The claim theorems. -/

/-- C1, counterexample: the claim states that whenever a parse produces at
least one syntax error, the compile facade returns a failure result carrying
the collected syntax diagnostics and skips analysis and generation.  On the
source `let` the parse produces one syntax error, yet compile succeeds and
returns generated output: the parser only logs its errors and the facade
never sees them. -/
theorem c1_counterexample :
    (parseProgram (tokenize "let")).2 = [⟨"Expected variable name", 1, 4⟩] ∧
    (compile "let").success = true ∧
    (compile "let").output.isSome = true := by
  refine ⟨?_, ?_, ?_⟩
  · rw [tokenizeEvalLet]
    rfl
  · unfold compile
    rw [tokenizeEvalLet]
    rfl
  · unfold compile
    rw [tokenizeEvalLet]
    rfl

/-- C1, amended: syntax errors caught during the parse are logged and
discarded, not returned; the compile result is decided solely by the
semantic-error gate on the recovered AST — success exactly when semantic
analysis of the parsed program reports nothing, in which case the output is
the generated text of that program, and otherwise the errors are the
formatted semantic messages. -/
theorem c1_amended (s : String) :
    ((compile s).success = true ↔ analyzeProgram (parseProgram (tokenize s)).1 = []) ∧
    (compile s).output = (if analyzeProgram (parseProgram (tokenize s)).1 = [] then
      some (generate { indent := 0, output := "" } (parseProgram (tokenize s)).1) else none) ∧
    (compile s).errors = (if analyzeProgram (parseProgram (tokenize s)).1 = [] then none
      else some ((analyzeProgram (parseProgram (tokenize s)).1).map SemanticError.formatted)) := by
  unfold compile
  by_cases h : analyzeProgram (parseProgram (tokenize s)).1 = []
  · simp [h]
  · have hl : 0 < (analyzeProgram (parseProgram (tokenize s)).1).length :=
      List.length_pos.mpr h
    simp [h, hl]

/-- C2: the claim (and the repository language specification, which promises
hoisting) says a call to `g` placed before the sibling declaration `fn g`
resolves without an undefined-variable error.  Evaluating the analyzer shows
the code disagrees: the call before the declaration yields exactly the error
`Undefined variable g`, while the same call after the declaration — and a
recursive call from the body — yield none. -/
theorem c2_theorem :
    analyzeProgram (parseProgram (tokenize "g()\nfn g() \x7b \x7d")).1 =
      [⟨"Undefined variable \x27g\x27", 1, 1⟩] ∧
    analyzeProgram (parseProgram (tokenize "fn g() \x7b \x7d\ng()")).1 = [] ∧
    analyzeProgram (parseProgram (tokenize "fn g() \x7b return g() \x7d")).1 = [] := by
  refine ⟨?_, ?_, ?_⟩
  · rw [tokenizeEvalFwd]
    rfl
  · rw [tokenizeEvalBack]
    rfl
  · rw [tokenizeEvalRec]
    rfl

/-- C3, counterexample: the claim states the emitted counted loop evaluates
the bound expression once at loop entry.  The emitted code for
`repeat 2 asciiLBrace asciiRBrace` places the bound expression in the
condition slot of the for-statement, and under the host for-loop semantics
that condition — and with it the bound expression — is evaluated three
times for the two iterations, not once. -/
theorem c3_counterexample :
    genStatement 1 (Statement.repeatStmt (Expression.numberLit "2" 1 8) [] 1 1) =
      "  for (let __i = 0; __i < 2; __i++) \x7b\n  \x7d\n" ∧
    (forLoopRun 2 0).1 = 3 ∧ (forLoopRun 2 0).1 ≠ 1 := by
  refine ⟨rfl, ?_, ?_⟩
  · rw [forLoopRun_eq]
  · rw [forLoopRun_eq]
    simp

/-- C3, amended: `repeat n` emits a counted loop whose condition embeds the
generated bound expression, the body nested one indent level deeper; under
the host for-loop semantics a loop with constant bound `n` executes its body
exactly `n` times while evaluating the bound expression `n + 1` times
(before every iteration and once more to stop), rather than once at loop
entry. -/
theorem c3_amended :
    (∀ (ind : Nat) (times : Expression) (body : List Statement) (l c : Nat),
      genStatement ind (Statement.repeatStmt times body l c) =
        indentation ind ++ "for (let __i = 0; __i < " ++ genExpression ind times ++
          "; __i++) \x7b\n" ++ genStatements (ind + 1) body ++ emitLineG ind "\x7d") ∧
    (∀ n : Nat, forLoopRun n 0 = (n + 1, n)) := by
  constructor
  · intro ind times body l c
    rfl
  · intro n
    rw [forLoopRun_eq]
    rfl

/-- C4, counterexample: the claim says parser error recovery is bounded to
the current logical line.  On the source `@ 1` + newline + `2` the pipeline
hands the parser a token sequence with no newline tokens at all; the parse
error is raised at line 1 column 1, and `synchronize` advances from there
all the way to the end-of-input token, consuming the number token that lies
on line 2 — recovery crossed the line boundary. -/
theorem c4_counterexample :
    ((tokenize "@ 1\n2").map (fun t => t.type) =
      [TokenType.ILLEGAL, .NUMBER, .NUMBER, .EOF]) ∧
    ((tokenize "@ 1\n2").getD 0 defaultToken).line = 1 ∧
    ((tokenize "@ 1\n2").getD 2 defaultToken).line = 2 ∧
    (parseProgram (tokenize "@ 1\n2")).2 = [⟨"Unexpected token: @", 1, 1⟩] ∧
    (synchronize ⟨tokenize "@ 1\n2", 0⟩).current = 3 ∧
    isAtEnd (synchronize ⟨tokenize "@ 1\n2", 0⟩) = true := by
  rw [tokenizeEvalSkip]
  exact ⟨rfl, rfl, rfl, rfl, rfl, rfl⟩

/-- C4, amended: the token sequence the pipeline hands the parser never
contains a newline token (tokenize filters them out), so the newline
stopping condition of `synchronize` is unreachable there: on any
newline-free token sequence, recovery stops only at end of input or in
front of a statement-starting keyword — it is not bounded to the current
logical line. -/
theorem c4_amended (st : ParserState) (s : String) :
    ((∀ t ∈ st.tokens, t.type ≠ TokenType.NEWLINE) →
      isAtEnd (synchronize st) = true ∨
        stmtStartKeywords.contains (peekT (synchronize st)).type = true) ∧
    (∀ u ∈ tokenize s, u.type ≠ TokenType.NEWLINE) := by
  constructor
  · exact synchronize_stop st
  · intro u hu
    obtain ⟨ts, t, heq, ht, hts⟩ := tokenizeLoop_spec (initLexState s)
    have hu2 : u ∈ ts ++ [t] := by
      have hu3 : u ∈ tokenizeLoop (initLexState s) := hu
      rwa [heq] at hu3
    rcases List.mem_append.mp hu2 with hm | hm
    · exact (hts u hm).2
    · have hut : u = t := by simpa using hm
      rw [hut, ht]
      simp

/-- C4, witness for the amended theorem at the concrete recovery run of the
counterexample source. -/
theorem c4_amended_witness :
    isAtEnd (synchronize ⟨tokenize "@ 1\n2", 0⟩) = true ∨
      stmtStartKeywords.contains (peekT (synchronize ⟨tokenize "@ 1\n2", 0⟩)).type = true :=
  (c4_amended ⟨tokenize "@ 1\n2", 0⟩ "@ 1\n2").1 (by rw [tokenizeEvalSkip]; decide)

/-- C5, counterexample: the claim states the comparison precedence level
reads exactly one operator application before returning, so `a < b < c`
does not become a left-nested chain of two comparisons.  Parsing that very
input produces exactly such a chain: the left operand of the outer `<` is
itself a `<` application. -/
theorem c5_counterexample :
    (expressionP 32 ⟨tokenize "a < b < c", 0⟩).1 =
      Except.ok (Expression.binary "<"
        (Expression.binary "<" (.identifier "a" 1 1) (.identifier "b" 1 5) 1 3)
        (.identifier "c" 1 9) 1 7) := by
  rw [tokenizeEvalCmp]
  rfl

/-- C5, amended: the comparison level is chaining and left-associative — its
`while` loop consumes every following comparison operator, so `a < b < c`
parses (without any syntax error) to the left-nested chain
`(a < b) < c`. -/
theorem c5_amended :
    (parseProgram (tokenize "a < b < c")).1.body =
      [Statement.exprStmt (Expression.binary "<"
        (Expression.binary "<" (.identifier "a" 1 1) (.identifier "b" 1 5) 1 3)
        (.identifier "c" 1 9) 1 7) 1 7] ∧
    (parseProgram (tokenize "a < b < c")).2 = [] := by
  rw [tokenizeEvalCmp]
  exact ⟨rfl, rfl⟩

/-- C6: a `let` analyzes its initializer first and declares the bound name
only afterwards, in the state the initializer analysis produced — the
binding is never visible inside its own initializer; concretely,
`let x = x` with no outer `x` yields exactly one semantic error naming `x`,
and `let x = y` with `y` undeclared yields exactly one naming `y`. -/
theorem c6_theorem :
    (∀ (ident : Ident) (value : Expression) (l c : Nat) (st : AnalyzerState),
      analyzeStatement (Statement.letStmt ident value l c) st =
        declareA ident.name "variable" ident.line ident.column (analyzeExpression value st)) ∧
    analyzeProgram (parseProgram (tokenize "let x = x")).1 =
      [⟨"Undefined variable \x27x\x27", 1, 9⟩] ∧
    analyzeProgram (parseProgram (tokenize "let x = y")).1 =
      [⟨"Undefined variable \x27y\x27", 1, 9⟩] := by
  refine ⟨fun ident value l c st => rfl, ?_, ?_⟩
  · rw [tokenizeEvalLetXX]
    rfl
  · rw [tokenizeEvalLetXY]
    rfl

/-- C7: the per-frame update emitted for each animation command mutates the
transform record exactly as claimed — move writes the x component for
left/right and the y component for up/down, subtracting for left and up and
adding for right and down; rotate adds to rotation, scale multiplies the
scale factor, fade subtracts from opacity. -/
theorem c7_theorem (ind : Nat) (amount : Expression) (l c : Nat) :
    genAnimCommand ind (AnimCommand.move amount "left" l c) =
      indentation ind ++ "animationState.x -= " ++ genExpression ind amount ++ ";\n" ∧
    genAnimCommand ind (AnimCommand.move amount "right" l c) =
      indentation ind ++ "animationState.x += " ++ genExpression ind amount ++ ";\n" ∧
    genAnimCommand ind (AnimCommand.move amount "up" l c) =
      indentation ind ++ "animationState.y -= " ++ genExpression ind amount ++ ";\n" ∧
    genAnimCommand ind (AnimCommand.move amount "down" l c) =
      indentation ind ++ "animationState.y += " ++ genExpression ind amount ++ ";\n" ∧
    genAnimCommand ind (AnimCommand.rotate amount l c) =
      indentation ind ++ "animationState.rotation += " ++ genExpression ind amount ++ ";\n" ∧
    genAnimCommand ind (AnimCommand.scale amount l c) =
      indentation ind ++ "animationState.scale *= " ++ genExpression ind amount ++ ";\n" ∧
    genAnimCommand ind (AnimCommand.fade amount l c) =
      indentation ind ++ "animationState.opacity -= " ++ genExpression ind amount ++ ";\n" :=
  ⟨rfl, rfl, rfl, rfl, rfl, rfl, rfl⟩

/-- C8: for every input string the lexer returns normally with a token list
that ends in exactly one end-of-input token (it is the last token and no
other token has that type), and unrecognized characters degrade to
illegal-token markers instead of aborting the scan, as the `@` sample
shows. -/
theorem c8_theorem (s : String) :
    tokenize s ≠ [] ∧
    ((tokenize s).getLast?).map (fun t => t.type) = some TokenType.EOF ∧
    (tokenize s).countP (fun t => t.type == TokenType.EOF) = 1 ∧
    (tokenize "@").map (fun t => (t.type, t.value)) =
      [(TokenType.ILLEGAL, "@"), (TokenType.EOF, "")] := by
  obtain ⟨ts, t, heq, ht, hts⟩ := tokenizeLoop_spec (initLexState s)
  have heq2 : tokenize s = ts ++ [t] := heq
  refine ⟨?_, ?_, ?_, ?_⟩
  · rw [heq2]
    simp
  · rw [heq2, List.getLast?_concat]
    simp [ht]
  · rw [heq2, List.countP_append]
    have h0 : ts.countP (fun t => t.type == TokenType.EOF) = 0 := by
      rw [List.countP_eq_zero]
      intro u hu
      simp [(hts u hu).1]
    rw [h0]
    simp [ht]
  · rw [tokenizeEvalAtSign]
    rfl

/-- C9: compilation is deterministic — the embedded pipeline is a pure
function of the source string, so two invocations of compile on the same
source agree; moreover `generate` discards whatever `output`/`indent` state
its generator instance carries (the method resets both on entry), so the
emitted text is independent of generator instance state. -/
theorem c9_theorem (s : String) (g1 g2 : GenState) (p : Program) :
    compile s = compile s ∧ generate g1 p = generate g2 p :=
  ⟨rfl, rfl⟩

/-- C10: when a move command amount is not followed by one of the direction
keywords, the parser keeps the default direction `right` instead of
reporting a syntax error, and code generation turns that command into an
increment of the x component of the transform state. -/
theorem c10_theorem (n : Nat) (st st1 : ParserState) (amount : Expression) (ind l c : Nat)
    (hp : primaryP n st = (Except.ok amount, st1))
    (hd : (peekT st1).type ∉
      [TokenType.UP, TokenType.DOWN, TokenType.LEFT, TokenType.RIGHT]) :
    moveCommandP (n + 1) st =
      (Except.ok (AnimCommand.move amount "right" (previousT st).line (previousT st).column),
        st1) ∧
    genAnimCommand ind (AnimCommand.move amount "right" l c) =
      indentation ind ++ "animationState.x += " ++ genExpression ind amount ++ ";\n" := by
  constructor
  · have hmt : matchT st1 [TokenType.UP, TokenType.DOWN, TokenType.LEFT, TokenType.RIGHT] =
        (false, st1) := by
      apply matchT_none
      intro ty hty
      apply checkT_false_of_peek_ne
      intro hEq
      rw [hEq] at hd
      exact hd hty
    simp [moveCommandP, hp, hmt]
  · rfl

/-- The token sequence of `animate` + left brace + `move 5` + right brace,
with the parser cursor standing right after the matched `move` keyword. -/
def moveWitnessTokens : List Token :=
  [⟨.ANIMATE, "animate", 1, 1⟩, ⟨.LBRACE, "\x7b", 1, 9⟩, ⟨.MOVE, "move", 1, 11⟩,
    ⟨.NUMBER, "5", 1, 16⟩, ⟨.RBRACE, "\x7d", 1, 18⟩, ⟨.EOF, "", 1, 19⟩]

/-- C10, witness: the move command of `animate` + braces + `move 5`, whose
amount is followed by a closing brace, parses with direction `right`. -/
theorem c10_witness :
    moveCommandP 6 ⟨moveWitnessTokens, 3⟩ =
      (Except.ok (AnimCommand.move (Expression.numberLit "5" 1 16) "right" 1 11),
        ⟨moveWitnessTokens, 4⟩) :=
  (c10_theorem 5 ⟨moveWitnessTokens, 3⟩ ⟨moveWitnessTokens, 4⟩
    (Expression.numberLit "5" 1 16) 0 0 0 rfl (by decide)).1

end MFlow
